import Mathlib

/-!
Verification of the Simplified_Router repository: a shallow embedding of
`NetworkInterface` (ARP resolution, pending queue, retry, cache expiry) and
`Router` (longest-prefix routing, TTL handling), with theorems checking the
natural-language specification against the code.

Machine integers are modelled as `Nat` with explicit wrap-around where the
C++ code relies on unsigned (`size_t`) arithmetic.  Wire-format codecs are
external collaborators in the source; frame payloads are therefore modelled
as an inductive sum (an IPv4 datagram, an ARP message, or undecodable bytes)
and `parse`/`serialize` succeed exactly on the matching constructor.
-/

namespace SimplifiedRouter

/-- Modulus of `size_t` (64-bit). -/
def WSIZE : Nat := 2 ^ 64

/-- `SIZE_MAX`, the timestamp stored on queued ARP retry markers. -/
def SIZE_MAX64 : Nat := 2 ^ 64 - 1

/-- `size_t` subtraction `a - b`, i.e. subtraction modulo `2^64`. -/
def wsub (a b : Nat) : Nat := (a % WSIZE + (WSIZE - b % WSIZE)) % WSIZE

/-- `EthernetHeader::TYPE_IPv4`. -/
def TYPE_IPv4 : Nat := 0x800

/-- `EthernetHeader::TYPE_ARP`. -/
def TYPE_ARP : Nat := 0x806

/-- `ARPMessage::OPCODE_REQUEST`. -/
def OPCODE_REQUEST : Nat := 1

/-- `ARPMessage::OPCODE_REPLY`. -/
def OPCODE_REPLY : Nat := 2

/-- `ETHERNET_BROADCAST` (ff:ff:ff:ff:ff:ff), link addresses as 48-bit numbers. -/
def ETHERNET_BROADCAST : Nat := 2 ^ 48 - 1

/-- `NetworkInterface::MAX_CACHE_TIME` (30000 ms). -/
def MAX_CACHE_TIME : Nat := 30000

/-- `NetworkInterface::MAX_WAITING_TIME` (5000 ms). -/
def MAX_WAITING_TIME : Nat := 5000

/-- Lookup in an association list, modelling `std::map::find`. -/
def alookup {α : Type} (k : Nat) : List (Nat × α) → Option α
  | [] => none
  | (k', v) :: rest => if k' = k then some v else alookup k rest

/-- Insert-or-assign in an association list, modelling `map[k] = v`. -/
def ainsert {α : Type} (k : Nat) (v : α) : List (Nat × α) → List (Nat × α)
  | [] => [(k, v)]
  | (k', v') :: rest => if k' = k then (k, v) :: rest else (k', v') :: ainsert k v rest

/-- An ARP message (fields of `ARPMessage` used by the core). -/
structure ARPMessage where
  opcode : Nat
  sender_ethernet_address : Nat
  sender_ip_address : Nat
  target_ethernet_address : Nat
  target_ip_address : Nat
deriving DecidableEq

/-- The IPv4 header fields the router logic reads or writes. -/
structure IPv4Header where
  ttl : Nat
  dst : Nat
deriving DecidableEq

/-- An IPv4 datagram. -/
structure InternetDatagram where
  header : IPv4Header
deriving DecidableEq

/-- A frame payload: decodable IPv4 bytes, decodable ARP bytes, or garbage.
`parse` in the source succeeds exactly when the bytes decode as the requested
message kind; the codec itself is an external collaborator. -/
inductive Payload where
  | ipv4 (d : InternetDatagram)
  | arp (m : ARPMessage)
  | bad
deriving DecidableEq

/-- An Ethernet header. -/
structure EthernetHeader where
  dst : Nat
  src : Nat
  type : Nat
deriving DecidableEq

/-- An Ethernet frame. -/
structure EthernetFrame where
  header : EthernetHeader
  payload : Payload
deriving DecidableEq

/-- `NetworkInterface::Ether_Addr_Entry`: one ARP-cache entry. -/
structure Ether_Addr_Entry where
  MAC_addr : Nat
  caching_time : Nat
deriving DecidableEq

/-- `NetworkInterface::Waiting_Packet`: one pending-queue item. -/
structure Waiting_Packet where
  dst_ip : Nat
  waiting_frame : EthernetFrame
  time : Nat
deriving DecidableEq

/-- The state of one `NetworkInterface`.  The clock `curr_time` is NOT part of
this structure: in the source it is a file-scope global `size_t curr_time = 0`
shared by every interface, so every operation below takes it separately. -/
structure NetworkInterface where
  ethernet_address_ : Nat
  ip_address_ : Nat
  ARP_table : List (Nat × Ether_Addr_Entry)
  ready2_sent_q : List EthernetFrame
  waiting_q : List Waiting_Packet
  request_history : List (Nat × Nat)
deriving DecidableEq

/-- `NetworkInterface::make_arp_message`. -/
def make_arp_message (sender_ethernet_address : Nat) (sender_ip_address : Nat)
    (target_ethernet_address : Nat) (target_ip_address : Nat) (opcode : Nat) : ARPMessage :=
  { opcode := opcode
    sender_ethernet_address := sender_ethernet_address
    sender_ip_address := sender_ip_address
    target_ethernet_address := target_ethernet_address
    target_ip_address := target_ip_address }

/-- `NetworkInterface::make_ethernet_frame`. -/
def make_ethernet_frame (dst src : Nat) (type : Nat) (payload : Payload) : EthernetFrame :=
  { header := { dst := dst, src := src, type := type }, payload := payload }

/-- A freshly constructed interface (constructor of `NetworkInterface`). -/
def initInterface (eth ip : Nat) : NetworkInterface :=
  { ethernet_address_ := eth
    ip_address_ := ip
    ARP_table := []
    ready2_sent_q := []
    waiting_q := []
    request_history := [] }

/-- The broadcast ARP request frame `send_datagram` builds for `next_hop_ip`. -/
def arpRequestFrame (s : NetworkInterface) (next_hop_ip : Nat) : EthernetFrame :=
  make_ethernet_frame ETHERNET_BROADCAST s.ethernet_address_ TYPE_ARP
    (.arp (make_arp_message s.ethernet_address_ s.ip_address_ 0 next_hop_ip OPCODE_REQUEST))

/-- The IPv4 frame without a destination MAC that `send_datagram` queues. -/
def noMacFrame (s : NetworkInterface) (dgram : InternetDatagram) : EthernetFrame :=
  make_ethernet_frame 0 s.ethernet_address_ TYPE_IPv4 (.ipv4 dgram)

/-- `NetworkInterface::send_datagram` (the clock `curr_time` passed explicitly). -/
def send_datagram (curr_time : Nat) (s : NetworkInterface)
    (dgram : InternetDatagram) (next_hop_ip : Nat) : NetworkInterface :=
  match alookup next_hop_ip s.ARP_table with
  | some entry =>
      let ether_frame := make_ethernet_frame entry.MAC_addr s.ethernet_address_
        TYPE_IPv4 (.ipv4 dgram)
      { s with ready2_sent_q := s.ready2_sent_q ++ [ether_frame] }
  | none =>
      let ARP_request_frame := arpRequestFrame s next_hop_ip
      let ether_frame_no_MAC := noMacFrame s dgram
      let s' :=
        match alookup next_hop_ip s.request_history with
        | none =>
            { s with request_history := ainsert next_hop_ip curr_time s.request_history
                     ready2_sent_q := s.ready2_sent_q ++ [ARP_request_frame] }
        | some last_sent =>
            if wsub curr_time last_sent < MAX_WAITING_TIME then
              { s with waiting_q := s.waiting_q ++
                  [(⟨next_hop_ip, ARP_request_frame, SIZE_MAX64⟩ : Waiting_Packet)] }
            else
              { s with request_history := ainsert next_hop_ip curr_time s.request_history
                       ready2_sent_q := s.ready2_sent_q ++ [ARP_request_frame] }
      { s' with waiting_q := s'.waiting_q ++
          [(⟨next_hop_ip, ether_frame_no_MAC, curr_time⟩ : Waiting_Packet)] }

/-- One step of the pending-queue scan on receipt of a matching ARP reply
(the body of the `while` loop in `recv_frame`): the accumulator carries the
rebuilt pending queue and the frames pushed onto the outbound-ready queue. -/
def flushStep (sender_ip sender_mac : Nat)
    (acc : List Waiting_Packet × List EthernetFrame) (p : Waiting_Packet) :
    List Waiting_Packet × List EthernetFrame :=
  if p.dst_ip ≠ sender_ip then
    (acc.1 ++ [p], acc.2)
  else if p.dst_ip = sender_ip ∧ p.waiting_frame.header.type = TYPE_IPv4 then
    (acc.1,
     acc.2 ++ [{ p.waiting_frame with
                  header := { p.waiting_frame.header with dst := sender_mac } }])
  else
    acc

/-- The full pending-queue scan of `recv_frame`'s ARP-reply branch. -/
def flushQueue (sender_ip sender_mac : Nat) (ws : List Waiting_Packet) :
    List Waiting_Packet × List EthernetFrame :=
  ws.foldl (flushStep sender_ip sender_mac) ([], [])

/-- `NetworkInterface::recv_frame`. -/
def recv_frame (curr_time : Nat) (s : NetworkInterface) (frame : EthernetFrame) :
    NetworkInterface × Option InternetDatagram :=
  if frame.header.dst = s.ethernet_address_ ∧ frame.header.type = TYPE_IPv4 then
    match frame.payload with
    | .ipv4 d => (s, some d)
    | _ => (s, none)
  else if (frame.header.dst = s.ethernet_address_ ∧ frame.header.type = TYPE_ARP) ∨
          (frame.header.dst = ETHERNET_BROADCAST ∧ frame.header.type = TYPE_ARP) then
    match frame.payload with
    | .arp m =>
        let sender_ip := m.sender_ip_address
        let sender_mac := m.sender_ethernet_address
        let entry : Ether_Addr_Entry := ⟨sender_mac, curr_time⟩
        let s1 := { s with ARP_table := ainsert sender_ip entry s.ARP_table }
        if m.opcode = OPCODE_REQUEST ∧ s.ip_address_ = m.target_ip_address then
          let ARP_reply_frame := make_ethernet_frame sender_mac s.ethernet_address_
            TYPE_ARP (.arp (make_arp_message s.ethernet_address_ s.ip_address_
              sender_mac sender_ip OPCODE_REPLY))
          ({ s1 with ready2_sent_q := s1.ready2_sent_q ++ [ARP_reply_frame] }, none)
        else if m.opcode = OPCODE_REPLY ∧ s.ip_address_ = m.target_ip_address then
          let fl := flushQueue sender_ip sender_mac s1.waiting_q
          ({ s1 with waiting_q := fl.1, ready2_sent_q := s1.ready2_sent_q ++ fl.2 }, none)
        else
          (s1, none)
    | _ => (s, none)
  else
    (s, none)

/-- One step of the pending-queue scan in `tick` (the body of its `while`
loop).  The accumulator carries the rebuilt pending queue, the request
history (which the loop mutates as it goes) and the frames pushed onto the
outbound-ready queue.  `request_history[first_ip]` is `std::map::operator[]`:
it value-initialises a missing entry to 0. -/
def tick_item (curr_time : Nat)
    (acc : List Waiting_Packet × List (Nat × Nat) × List EthernetFrame)
    (p : Waiting_Packet) :
    List Waiting_Packet × List (Nat × Nat) × List EthernetFrame :=
  let hist1 :=
    if (alookup p.dst_ip acc.2.1).isSome then acc.2.1 else ainsert p.dst_ip 0 acc.2.1
  let ARP_caching_time := (alookup p.dst_ip hist1).getD 0
  if MAX_WAITING_TIME ≤ wsub curr_time ARP_caching_time ∧
     p.waiting_frame.header.type = TYPE_ARP ∧
     p.waiting_frame.header.dst = ETHERNET_BROADCAST then
    (acc.1, ainsert p.dst_ip curr_time hist1, acc.2.2 ++ [p.waiting_frame])
  else if p.waiting_frame.header.type = TYPE_IPv4 ∨
          wsub curr_time p.time < MAX_WAITING_TIME then
    (acc.1 ++ [p], hist1, acc.2.2)
  else
    (acc.1, hist1, acc.2.2)

/-- `NetworkInterface::tick`: advances the global clock and returns the new
clock value together with the updated interface. -/
def tick (curr_time : Nat) (s : NetworkInterface) (ms_since_last_tick : Nat) :
    Nat × NetworkInterface :=
  let t' := (curr_time + ms_since_last_tick) % WSIZE
  let table' := s.ARP_table.filter
    (fun kv => !(decide (MAX_CACHE_TIME < wsub t' kv.2.caching_time)))
  let r := s.waiting_q.foldl (tick_item t') ([], s.request_history, [])
  (t', { s with ARP_table := table'
                waiting_q := r.1
                request_history := r.2.1
                ready2_sent_q := s.ready2_sent_q ++ r.2.2 })

/-- `NetworkInterface::maybe_send`. -/
def maybe_send (s : NetworkInterface) : NetworkInterface × Option EthernetFrame :=
  match s.ready2_sent_q with
  | [] => (s, none)
  | f :: rest => ({ s with ready2_sent_q := rest }, some f)

/-! ## Router (`router.cc`) -/

/-- One routing-table entry (`RoutingTableElement`).  `prefix_length_` is a
`uint8_t` in the source; values above 32 are representable and `add_route`
never rejects them. -/
structure RoutingTableElement where
  route_prefix_ : Nat
  prefix_length_ : Nat
  next_hop_ : Option Nat
  interface_num_ : Nat
deriving DecidableEq

/-- `Router::add_route`: construct the element and append it to the table. -/
def add_route (table : List RoutingTableElement) (routePfx : Nat)
    (prefix_length : Nat) (next_hop : Option Nat) (interface_num : Nat) :
    List RoutingTableElement :=
  table ++ [⟨routePfx, prefix_length, next_hop, interface_num⟩]

/-- Arithmetic right shift of a (signed, two's-complement) integer. -/
def sar (x : Int) (k : Nat) : Int := Int.fdiv x (2 ^ k)

/-- Conversion of a signed 32-bit value to `uint32_t`. -/
def toUInt32 (x : Int) : Nat := (x % 2 ^ 32).toNat

/-- The `bitmask` computed inside `Router::route_single_dgram`:
`numeric_limits<int>::min() >> (prefix_length_ - 1)` (arithmetic shift of
INT_MIN, then implicit conversion to `uint32_t`), guarded by
`0 < prefix_length_ && prefix_length_ <= 32`, else zero. -/
def codeBitmask (prefix_length : Nat) : Nat :=
  if 0 < prefix_length ∧ prefix_length ≤ 32 then
    toUInt32 (sar (-(2 ^ 31)) (prefix_length - 1))
  else 0

/-- The route-selection loop of `route_single_dgram`: scans the table in
order keeping `(target_index, longest_prefix_len)`, both `int`s starting at
`-1`; an entry is taken when `bitmask & dest == route_prefix_` and
`longest_prefix_len <= prefix_length_`. -/
def lookupAux (dest : Nat) : List RoutingTableElement → Nat → Int × Int → Int × Int
  | [], _, acc => acc
  | e :: rest, i, acc =>
      let bitmask := codeBitmask e.prefix_length_
      let acc' :=
        if bitmask &&& dest = e.route_prefix_ ∧ acc.2 ≤ (e.prefix_length_ : Int) then
          ((i : Int), (e.prefix_length_ : Int))
        else acc
      lookupAux dest rest (i + 1) acc'

/-- The `(target_index, longest_prefix_len)` pair after the scan. -/
def lookupRoute (table : List RoutingTableElement) (dest : Nat) : Int × Int :=
  lookupAux dest table 0 (-1, -1)

/-- The selected route index as an `Option` (`target_index == -1` means no
route). -/
def lookupRouteIdx (table : List RoutingTableElement) (dest : Nat) : Option Nat :=
  if (lookupRoute table dest).1 = -1 then none else some (lookupRoute table dest).1.toNat

/-- The observable effect of `Router::route_single_dgram` on one datagram:
the datagram as left by the routine (TTL possibly decremented), whether
`compute_checksum` was invoked (checksum computation itself is an external
collaborator), and the send action `(interface_num, next_hop ip)` handed to
`send_datagram`, if any. -/
structure RouteEffect where
  dgram : InternetDatagram
  checksummed : Bool
  sent : Option (Nat × Nat)
deriving DecidableEq

/-- `Router::route_single_dgram`. -/
def route_single_dgram (table : List RoutingTableElement)
    (dgram : InternetDatagram) : RouteEffect :=
  if dgram.header.ttl ≤ 0 then
    ⟨dgram, false, none⟩
  else
    let r := lookupRoute table dgram.header.dst
    if r.1 = -1 then
      ⟨dgram, false, none⟩
    else
      let dgram' : InternetDatagram :=
        ⟨{ dgram.header with ttl := dgram.header.ttl - 1 }⟩
      if dgram'.header.ttl ≤ 0 then
        ⟨dgram', false, none⟩
      else
        let e := table.getD r.1.toNat ⟨0, 0, none, 0⟩
        ⟨dgram', true, some (e.interface_num_, e.next_hop_.getD dgram.header.dst)⟩

/-! ## Two interfaces sharing the global clock

In the source, `size_t curr_time = 0;` is a file-scope global: every
`NetworkInterface` instance reads and advances the same clock. -/

/-- Two interfaces A and B together with the single shared global clock. -/
structure World where
  curr_time : Nat
  ifaceA : NetworkInterface
  ifaceB : NetworkInterface
deriving DecidableEq

/-- `tick` called on interface A. -/
def worldTickA (w : World) (ms : Nat) : World :=
  { w with curr_time := (tick w.curr_time w.ifaceA ms).1
           ifaceA := (tick w.curr_time w.ifaceA ms).2 }

/-- `tick` called on interface B. -/
def worldTickB (w : World) (ms : Nat) : World :=
  { w with curr_time := (tick w.curr_time w.ifaceB ms).1
           ifaceB := (tick w.curr_time w.ifaceB ms).2 }

/-- `send_datagram` called on interface A. -/
def worldSendA (w : World) (d : InternetDatagram) (next_hop_ip : Nat) : World :=
  { w with ifaceA := send_datagram w.curr_time w.ifaceA d next_hop_ip }

/-! ## Traces of `send` and `tick` operations on one interface -/

/-- An operation on one interface: `send_datagram` or `tick`. -/
inductive IfOp where
  | send (d : InternetDatagram) (next_hop_ip : Nat)
  | tick (ms : Nat)

/-- One operation applied to (global clock, interface state). -/
def stepOp : Nat × NetworkInterface → IfOp → Nat × NetworkInterface
  | (t, s), .send d nh => (t, send_datagram t s d nh)
  | (t, s), .tick ms => tick t s ms

/-- Run a trace of operations from a given clock and state. -/
def runFrom (ts : Nat × NetworkInterface) (ops : List IfOp) : Nat × NetworkInterface :=
  ops.foldl stepOp ts

/-- Run a trace from a freshly constructed interface at clock 0. -/
def runOps (eth ip : Nat) (ops : List IfOp) : Nat × NetworkInterface :=
  runFrom (0, initInterface eth ip) ops

/-- Total time a trace advances the clock by. -/
def tickSum : List IfOp → Nat
  | [] => 0
  | .tick ms :: ops => ms + tickSum ops
  | .send _ _ :: ops => tickSum ops

/-- Is `f` a broadcast ARP request frame asking for `ip`? -/
def isArpRequestFor (ip : Nat) (f : EthernetFrame) : Bool :=
  f.header.dst == ETHERNET_BROADCAST && f.header.type == TYPE_ARP &&
    (match f.payload with
     | .arp m => m.opcode == OPCODE_REQUEST && m.target_ip_address == ip
     | _ => false)

/-- The clock times at which one operation appends broadcast ARP request
frames for `ip` to the outbound-ready queue (each appended matching frame
contributes the clock value current when it was appended). -/
def stepEvents (ip : Nat) (ts : Nat × NetworkInterface) (op : IfOp) : List Nat :=
  (((stepOp ts op).2.ready2_sent_q.drop ts.2.ready2_sent_q.length).filter
      (isArpRequestFor ip)).map (fun _ => (stepOp ts op).1)

/-- All ARP-request-append events for `ip` along a trace, in order. -/
def eventsAux (ip : Nat) : Nat × NetworkInterface → List IfOp → List Nat
  | _, [] => []
  | ts, op :: ops => stepEvents ip ts op ++ eventsAux ip (stepOp ts op) ops

/-- Event times for `ip` over a trace from a fresh interface. -/
def arpReqEvents (eth ipa ip : Nat) (ops : List IfOp) : List Nat :=
  eventsAux ip (0, initInterface eth ipa) ops

/-! ## Basic lemmas about wrap-around subtraction and association lists -/

lemma wsub_self (a : Nat) : wsub a a = 0 := by
  unfold wsub WSIZE
  omega

lemma wsub_eq_sub {a b : Nat} (hb : b ≤ a) (ha : a < WSIZE) : wsub a b = a - b := by
  unfold wsub WSIZE at *
  omega

lemma wsub_sizemax (t : Nat) : wsub t SIZE_MAX64 = (t + 1) % WSIZE := by
  unfold wsub SIZE_MAX64 WSIZE
  omega

lemma alookup_ainsert_self {α : Type} (k : Nat) (v : α) (l : List (Nat × α)) :
    alookup k (ainsert k v l) = some v := by
  induction l with
  | nil => simp [ainsert, alookup]
  | cons p rest ih =>
      by_cases h : p.1 = k
      · simp [ainsert, alookup, h]
      · simp [ainsert, alookup, h, ih]

lemma alookup_ainsert_ne {α : Type} {k k' : Nat} (v : α) (l : List (Nat × α))
    (h : k' ≠ k) : alookup k' (ainsert k v l) = alookup k' l := by
  have h' : ¬k = k' := fun hh => h hh.symm
  induction l with
  | nil => simp [ainsert, alookup, h']
  | cons p rest ih =>
      by_cases hp : p.1 = k
      · subst hp
        simp [ainsert, alookup, h']
      · simp [ainsert, alookup, hp, ih]

lemma alookup_ainsert (α : Type) (k k' : Nat) (v : α) (l : List (Nat × α)) :
    alookup k' (ainsert k v l) = if k' = k then some v else alookup k' l := by
  by_cases h : k' = k
  · subst h
    simp [alookup_ainsert_self]
  · simp [h, alookup_ainsert_ne v l h]

lemma isSome_alookup_ainsert {α : Type} {k' : Nat} {l : List (Nat × α)} (k : Nat) (v : α)
    (h : (alookup k' l).isSome) : (alookup k' (ainsert k v l)).isSome := by
  rw [alookup_ainsert]
  by_cases hk : k' = k <;> simp [hk, h]

/-! ## The pending-queue flush on receipt of an ARP reply -/

/-- The retargeted frame a flushed datagram item turns into. -/
def retarget (smac : Nat) (p : Waiting_Packet) : EthernetFrame :=
  { p.waiting_frame with header := { p.waiting_frame.header with dst := smac } }

lemma flushStep_eq (sip smac : Nat) (acc : List Waiting_Packet × List EthernetFrame)
    (p : Waiting_Packet) :
    flushStep sip smac acc p =
      if p.dst_ip = sip then
        (if p.waiting_frame.header.type = TYPE_IPv4 then
          (acc.1, acc.2 ++ [retarget smac p])
         else acc)
      else (acc.1 ++ [p], acc.2) := by
  by_cases h1 : p.dst_ip = sip
  · by_cases h2 : p.waiting_frame.header.type = TYPE_IPv4
    · simp [flushStep, h1, h2, retarget]
    · simp [flushStep, h1, h2]
  · simp [flushStep, h1]

lemma flush_fold (sip smac : Nat) (ws : List Waiting_Packet) :
    ∀ (kept : List Waiting_Packet) (pushed : List EthernetFrame),
    ws.foldl (flushStep sip smac) (kept, pushed) =
      (kept ++ ws.filter (fun p => !(p.dst_ip == sip)),
       pushed ++ (ws.filter
           (fun p => p.dst_ip == sip && p.waiting_frame.header.type == TYPE_IPv4)).map
         (retarget smac)) := by
  induction ws with
  | nil => intro kept pushed; simp
  | cons p rest ih =>
      intro kept pushed
      rw [List.foldl_cons, flushStep_eq]
      by_cases h1 : p.dst_ip = sip
      · by_cases h2 : p.waiting_frame.header.type = TYPE_IPv4
        · rw [if_pos h1, if_pos h2, ih]
          simp [List.filter_cons, h1, h2]
        · rw [if_pos h1, if_neg h2, ih]
          simp [List.filter_cons, h1, h2]
      · rw [if_neg h1, ih]
        simp [List.filter_cons, h1]

lemma flushQueue_eq (sip smac : Nat) (ws : List Waiting_Packet) :
    flushQueue sip smac ws =
      (ws.filter (fun p => !(p.dst_ip == sip)),
       (ws.filter
           (fun p => p.dst_ip == sip && p.waiting_frame.header.type == TYPE_IPv4)).map
         (retarget smac)) := by
  unfold flushQueue
  rw [flush_fold]
  simp

/-- The state after `recv_frame` processes a matching ARP reply, written out. -/
lemma recv_frame_reply (curr_time : Nat) (s : NetworkInterface) (frame : EthernetFrame)
    (m : ARPMessage)
    (hdst : frame.header.dst = s.ethernet_address_ ∨ frame.header.dst = ETHERNET_BROADCAST)
    (htype : frame.header.type = TYPE_ARP)
    (hpay : frame.payload = .arp m)
    (hop : m.opcode = OPCODE_REPLY)
    (htgt : s.ip_address_ = m.target_ip_address) :
    recv_frame curr_time s frame =
      ({ s with
          ARP_table := ainsert m.sender_ip_address
            ⟨m.sender_ethernet_address, curr_time⟩ s.ARP_table
          waiting_q := s.waiting_q.filter
            (fun p => !(p.dst_ip == m.sender_ip_address))
          ready2_sent_q := s.ready2_sent_q ++
            (s.waiting_q.filter (fun p => p.dst_ip == m.sender_ip_address &&
                p.waiting_frame.header.type == TYPE_IPv4)).map
              (retarget m.sender_ethernet_address) }, none) := by
  have hne : ¬(frame.header.dst = s.ethernet_address_ ∧ frame.header.type = TYPE_IPv4) := by
    rintro ⟨-, h2⟩
    rw [htype] at h2
    simp [TYPE_ARP, TYPE_IPv4] at h2
  have hreq : ¬(m.opcode = OPCODE_REQUEST ∧ s.ip_address_ = m.target_ip_address) := by
    rintro ⟨h1, -⟩
    rw [hop] at h1
    simp [OPCODE_REPLY, OPCODE_REQUEST] at h1
  have harp : (frame.header.dst = s.ethernet_address_ ∧ frame.header.type = TYPE_ARP) ∨
      (frame.header.dst = ETHERNET_BROADCAST ∧ frame.header.type = TYPE_ARP) := by
    rcases hdst with h | h
    · exact Or.inl ⟨h, htype⟩
    · exact Or.inr ⟨h, htype⟩
  have hrep : m.opcode = OPCODE_REPLY ∧ s.ip_address_ = m.target_ip_address := ⟨hop, htgt⟩
  unfold recv_frame
  rw [if_neg hne, if_pos harp, hpay]
  simp only [if_neg hreq, if_pos hrep, flushQueue_eq]

/-! ## Shape lemmas for `send_datagram` -/

lemma send_datagram_hit (t : Nat) (s : NetworkInterface) (dg : InternetDatagram)
    (ip : Nat) (e : Ether_Addr_Entry) (h1 : alookup ip s.ARP_table = some e) :
    send_datagram t s dg ip =
      { s with ready2_sent_q := s.ready2_sent_q ++
          [make_ethernet_frame e.MAC_addr s.ethernet_address_ TYPE_IPv4 (.ipv4 dg)] } := by
  simp [send_datagram, h1]

lemma send_datagram_new (t : Nat) (s : NetworkInterface) (dg : InternetDatagram)
    (ip : Nat) (h1 : alookup ip s.ARP_table = none)
    (h2 : alookup ip s.request_history = none) :
    send_datagram t s dg ip =
      { s with request_history := ainsert ip t s.request_history
               ready2_sent_q := s.ready2_sent_q ++ [arpRequestFrame s ip]
               waiting_q := s.waiting_q ++ [⟨ip, noMacFrame s dg, t⟩] } := by
  simp [send_datagram, h1, h2]

lemma send_datagram_young (t : Nat) (s : NetworkInterface) (dg : InternetDatagram)
    (ip last : Nat) (h1 : alookup ip s.ARP_table = none)
    (h2 : alookup ip s.request_history = some last)
    (h3 : wsub t last < MAX_WAITING_TIME) :
    send_datagram t s dg ip =
      { s with waiting_q := s.waiting_q ++
          [⟨ip, arpRequestFrame s ip, SIZE_MAX64⟩, ⟨ip, noMacFrame s dg, t⟩] } := by
  simp [send_datagram, h1, h2, h3]

lemma send_datagram_stale (t : Nat) (s : NetworkInterface) (dg : InternetDatagram)
    (ip last : Nat) (h1 : alookup ip s.ARP_table = none)
    (h2 : alookup ip s.request_history = some last)
    (h3 : MAX_WAITING_TIME ≤ wsub t last) :
    send_datagram t s dg ip =
      { s with request_history := ainsert ip t s.request_history
               ready2_sent_q := s.ready2_sent_q ++ [arpRequestFrame s ip]
               waiting_q := s.waiting_q ++ [⟨ip, noMacFrame s dg, t⟩] } := by
  have h3' : ¬wsub t last < MAX_WAITING_TIME := by omega
  simp [send_datagram, h1, h2, h3']

/-! ## Claim C2: flushing the pending queue on a matching ARP reply -/

/-- C2: when `recv_frame` processes an ARP reply whose target IP is this
interface's IP, every queued datagram (IPv4-typed) item for the reply's
sender IP is removed from the pending queue, retargeted to the sender's link
address and appended to the outbound-ready queue in original relative order,
while all items for other next hops stay in the pending queue in their
original relative order. -/
theorem c2_reply_flush (t : Nat) (s : NetworkInterface) (frame : EthernetFrame)
    (m : ARPMessage)
    (hdst : frame.header.dst = s.ethernet_address_ ∨ frame.header.dst = ETHERNET_BROADCAST)
    (htype : frame.header.type = TYPE_ARP)
    (hpay : frame.payload = .arp m)
    (hop : m.opcode = OPCODE_REPLY)
    (htgt : s.ip_address_ = m.target_ip_address) :
    (recv_frame t s frame).1.ready2_sent_q = s.ready2_sent_q ++
        (s.waiting_q.filter (fun p => p.dst_ip == m.sender_ip_address &&
            p.waiting_frame.header.type == TYPE_IPv4)).map
          (retarget m.sender_ethernet_address)
    ∧ (∀ p ∈ (recv_frame t s frame).1.waiting_q,
        ¬(p.dst_ip = m.sender_ip_address ∧ p.waiting_frame.header.type = TYPE_IPv4))
    ∧ (recv_frame t s frame).1.waiting_q.filter
          (fun p => !(p.dst_ip == m.sender_ip_address)) =
        s.waiting_q.filter (fun p => !(p.dst_ip == m.sender_ip_address)) := by
  rw [recv_frame_reply t s frame m hdst htype hpay hop htgt]
  refine ⟨rfl, ?_, ?_⟩
  · intro p hp
    rcases List.mem_filter.mp hp with ⟨-, hcond⟩
    rintro ⟨hd, -⟩
    simp [hd] at hcond
  · rw [List.filter_filter]
    simp

def c2s : NetworkInterface :=
  { ethernet_address_ := 1
    ip_address_ := 2
    ARP_table := []
    ready2_sent_q := []
    waiting_q := [⟨10, make_ethernet_frame 0 1 TYPE_IPv4 (.ipv4 ⟨⟨64, 50⟩⟩), 0⟩,
                  ⟨11, make_ethernet_frame 0 1 TYPE_IPv4 (.ipv4 ⟨⟨64, 51⟩⟩), 0⟩,
                  ⟨10, make_ethernet_frame 0 1 TYPE_IPv4 (.ipv4 ⟨⟨64, 52⟩⟩), 0⟩]
    request_history := [(10, 0), (11, 0)] }

def c2m : ARPMessage := ⟨OPCODE_REPLY, 7, 10, 1, 2⟩

def c2f : EthernetFrame := ⟨⟨1, 7, TYPE_ARP⟩, .arp c2m⟩

/-- Witness for C2 at a concrete pending queue of three items. -/
theorem c2_reply_flush_witness :
    (recv_frame 0 c2s c2f).1.ready2_sent_q = c2s.ready2_sent_q ++
        (c2s.waiting_q.filter (fun p => p.dst_ip == c2m.sender_ip_address &&
            p.waiting_frame.header.type == TYPE_IPv4)).map
          (retarget c2m.sender_ethernet_address)
    ∧ (∀ p ∈ (recv_frame 0 c2s c2f).1.waiting_q,
        ¬(p.dst_ip = c2m.sender_ip_address ∧ p.waiting_frame.header.type = TYPE_IPv4))
    ∧ (recv_frame 0 c2s c2f).1.waiting_q.filter
          (fun p => !(p.dst_ip == c2m.sender_ip_address)) =
        c2s.waiting_q.filter (fun p => !(p.dst_ip == c2m.sender_ip_address)) :=
  c2_reply_flush 0 c2s c2f c2m (Or.inl rfl) rfl rfl rfl rfl

/-! ## Claim C10: ARP retry markers on a matching ARP reply -/

/-- C10 (amended): when `recv_frame` processes a matching ARP reply, every
pending item for the sender IP whose frame is not IPv4-typed (the queued ARP
retry markers) is removed from the pending queue without being appended to
the outbound-ready queue (everything appended is IPv4-typed), and no pending
item for the sender IP remains at all. -/
theorem c10_marker_discard (t : Nat) (s : NetworkInterface) (frame : EthernetFrame)
    (m : ARPMessage)
    (hdst : frame.header.dst = s.ethernet_address_ ∨ frame.header.dst = ETHERNET_BROADCAST)
    (htype : frame.header.type = TYPE_ARP)
    (hpay : frame.payload = .arp m)
    (hop : m.opcode = OPCODE_REPLY)
    (htgt : s.ip_address_ = m.target_ip_address) :
    (∀ p ∈ s.waiting_q, p.dst_ip = m.sender_ip_address →
        p.waiting_frame.header.type ≠ TYPE_IPv4 →
        p ∉ (recv_frame t s frame).1.waiting_q)
    ∧ (∀ f ∈ (recv_frame t s frame).1.ready2_sent_q.drop s.ready2_sent_q.length,
        f.header.type = TYPE_IPv4)
    ∧ (recv_frame t s frame).1.waiting_q.filter
        (fun p => p.dst_ip == m.sender_ip_address) = [] := by
  rw [recv_frame_reply t s frame m hdst htype hpay hop htgt]
  refine ⟨?_, ?_, ?_⟩
  · intro p _ hd _ hmem
    rcases List.mem_filter.mp hmem with ⟨-, hcond⟩
    simp [hd] at hcond
  · intro f hf
    rw [List.drop_left] at hf
    rcases List.mem_map.mp hf with ⟨p, hp, hfp⟩
    rcases List.mem_filter.mp hp with ⟨-, hcond⟩
    have htyp : p.waiting_frame.header.type = TYPE_IPv4 := by
      simp only [Bool.and_eq_true, beq_iff_eq] at hcond
      exact hcond.2
    rw [← hfp]
    exact htyp
  · rw [List.filter_filter]
    apply List.filter_eq_nil_iff.mpr
    intro p _
    by_cases h : p.dst_ip = m.sender_ip_address <;> simp [h]

def c10s : NetworkInterface :=
  { ethernet_address_ := 1
    ip_address_ := 2
    ARP_table := []
    ready2_sent_q := []
    waiting_q := [⟨10, make_ethernet_frame 0 1 TYPE_IPv4 (.ipv4 ⟨⟨64, 50⟩⟩), 0⟩,
                  ⟨10, make_ethernet_frame ETHERNET_BROADCAST 1 TYPE_ARP
                      (.arp (make_arp_message 1 2 0 10 OPCODE_REQUEST)), SIZE_MAX64⟩,
                  ⟨11, make_ethernet_frame 0 1 TYPE_IPv4 (.ipv4 ⟨⟨64, 51⟩⟩), 0⟩]
    request_history := [(10, 0), (11, 0)] }

def c10m : ARPMessage := ⟨OPCODE_REPLY, 9, 10, 1, 2⟩

def c10f : EthernetFrame := ⟨⟨ETHERNET_BROADCAST, 9, TYPE_ARP⟩, .arp c10m⟩

/-- Witness for the amended C10 at a concrete pending queue that holds a
retry marker for the resolved IP. -/
theorem c10_marker_discard_witness :
    (∀ p ∈ c10s.waiting_q, p.dst_ip = c10m.sender_ip_address →
        p.waiting_frame.header.type ≠ TYPE_IPv4 →
        p ∉ (recv_frame 3 c10s c10f).1.waiting_q)
    ∧ (∀ f ∈ (recv_frame 3 c10s c10f).1.ready2_sent_q.drop c10s.ready2_sent_q.length,
        f.header.type = TYPE_IPv4)
    ∧ (recv_frame 3 c10s c10f).1.waiting_q.filter
        (fun p => p.dst_ip == c10m.sender_ip_address) = [] :=
  c10_marker_discard 3 c10s c10f c10m (Or.inr rfl) rfl rfl rfl rfl

/-- The concrete trace refuting C10's universal consequence: send, resolve
by reply, let the cache entry expire, send twice (queueing a retry marker),
re-learn the IP from a gratuitous ARP request (which does not flush the
pending queue), then tick. -/
def c10dg : InternetDatagram := ⟨⟨64, 99⟩⟩

def c10u1 : NetworkInterface := send_datagram 0 (initInterface 1 2) c10dg 10

def c10u2 : NetworkInterface :=
  (recv_frame 0 c10u1 ⟨⟨1, 7, TYPE_ARP⟩, .arp ⟨OPCODE_REPLY, 7, 10, 1, 2⟩⟩).1

def c10u3 : NetworkInterface := (tick 0 c10u2 30001).2

def c10u4 : NetworkInterface := send_datagram 30001 c10u3 c10dg 10

def c10u5 : NetworkInterface := send_datagram 30001 c10u4 c10dg 10

def c10u6 : NetworkInterface :=
  (recv_frame 30001 c10u5 ⟨⟨ETHERNET_BROADCAST, 7, TYPE_ARP⟩,
      .arp ⟨OPCODE_REQUEST, 7, 10, 0, 2⟩⟩).1

def c10u7 : NetworkInterface := (tick 30001 c10u6 5000).2

/-- Counterexample to C10 as stated: a trace in which, after an IP was
resolved by a gratuitous ARP request while a retry marker was still queued,
`tick` transmits a broadcast ARP request for the already-resolved IP out of
the pending queue. -/
theorem c10_counterexample :
    (alookup 10 c10u6.ARP_table).isSome = true
    ∧ (alookup 10 c10u7.ARP_table).isSome = true
    ∧ (c10u6.waiting_q.filter (fun p => p.dst_ip == 10 &&
          p.waiting_frame.header.type == TYPE_ARP)).length = 1
    ∧ ((c10u7.ready2_sent_q.drop c10u6.ready2_sent_q.length).filter
          (isArpRequestFor 10)).length = 1 := by
  decide

/-! ## Claim C7: `add_route` and prefix lengths above 32 -/

/-- Counterexample to C7 as stated: `add_route` with a prefix length of 33
does not fail fast; it appends the malformed entry to the table. -/
theorem c7_counterexample :
    add_route [] 0 33 none 0 = [⟨0, 33, none, 0⟩] ∧ add_route [] 0 33 none 0 ≠ [] := by
  constructor
  · rfl
  · decide

/-- C7 (amended): `add_route` performs no validation at all — every call,
whatever its prefix length (including values above 32), appends the entry
unchanged; at lookup time an entry with prefix length above 32 is handled
with an all-zero mask. -/
theorem c7_no_validation :
    (∀ (table : List RoutingTableElement) (rp pl : Nat) (nh : Option Nat) (inum : Nat),
        add_route table rp pl nh inum = table ++ [⟨rp, pl, nh, inum⟩])
    ∧ (∀ pl : Nat, 32 < pl → codeBitmask pl = 0) := by
  constructor
  · intro table rp pl nh inum
    rfl
  · intro pl hpl
    have h : ¬(0 < pl ∧ pl ≤ 32) := by omega
    simp [codeBitmask, h]

/-- Witness for the amended C7 at a concrete route and prefix length. -/
theorem c7_no_validation_witness :
    add_route [] 5 7 none 3 = [] ++ [⟨5, 7, none, 3⟩] ∧ codeBitmask 40 = 0 :=
  ⟨c7_no_validation.1 [] 5 7 none 3, c7_no_validation.2 40 (by omega)⟩

/-! ## Claim C8: the clock is shared between interfaces -/

/-- A two-interface world: A has just sent a datagram toward the unresolved
IP 10 at clock 0; B is freshly constructed. -/
def c8w : World := ⟨0, send_datagram 0 (initInterface 1 2) ⟨⟨64, 99⟩⟩ 10, initInterface 3 4⟩

/-- Counterexample to C8 as stated: ticking interface B changes the (shared,
global) clock and thereby changes interface A's subsequent observable
behavior — after B ticks 5000 ms, a repeated send on A emits a fresh ARP
request that it would not emit otherwise. -/
theorem c8_counterexample :
    (worldTickB c8w 5000).curr_time ≠ c8w.curr_time
    ∧ (worldSendA (worldTickB c8w 5000) ⟨⟨64, 99⟩⟩ 10).ifaceA.ready2_sent_q ≠
        (worldSendA c8w ⟨⟨64, 99⟩⟩ 10).ifaceA.ready2_sent_q := by
  constructor
  · decide
  · decide

/-- C8 (amended): `curr_time` is a single global clock shared by all
interfaces; `tick` on B leaves A's own per-interface state (cache, queues,
request records) unchanged but advances the shared clock, on which A's
subsequent behavior depends. -/
theorem c8_shared_clock (w : World) (ms : Nat) :
    (worldTickB w ms).ifaceA = w.ifaceA
    ∧ (worldTickB w ms).curr_time = (w.curr_time + ms) % WSIZE
    ∧ (worldTickA w ms).ifaceB = w.ifaceB
    ∧ (worldTickA w ms).curr_time = (w.curr_time + ms) % WSIZE :=
  ⟨rfl, rfl, rfl, rfl⟩

/-! ## Claim C4: `tick` does not retransmit for pending datagrams -/

/-- The failing input for C4: one datagram was sent toward the unresolved
IP 10 at clock 0 and a tick advanced the clock to 6000. -/
def c4s1 : NetworkInterface := send_datagram 0 (initInterface 1 2) ⟨⟨64, 99⟩⟩ 10

def c4p2 : Nat × NetworkInterface := tick 0 c4s1 6000

/-- C4 fails on the code: in a state where IP 10 has a datagram item still
pending and its pending-request record is 6000 ms old (older than the
5000 ms retry interval), a call to `tick` appends no broadcast ARP request
at all and leaves `last_sent_at` unrefreshed — the retry logic only fires on
queued ARP marker frames, and none exists here. -/
theorem c4_tick_no_retry :
    (c4p2.2.waiting_q ≠ []
      ∧ (∀ p ∈ c4p2.2.waiting_q,
          p.dst_ip = 10 ∧ p.waiting_frame.header.type = TYPE_IPv4)
      ∧ alookup 10 c4p2.2.request_history = some 0
      ∧ MAX_WAITING_TIME < wsub c4p2.1 0)
    ∧ (tick c4p2.1 c4p2.2 0).2.ready2_sent_q = c4p2.2.ready2_sent_q
    ∧ alookup 10 ((tick c4p2.1 c4p2.2 0).2).request_history = some 0 := by
  decide

/-! ## Claim C6: cache expiry and the subsequent send -/

/-- The concrete trace refuting C6's universal consequence: two sends at
clock 0 queue a retry marker; a gratuitous ARP request from IP 10 teaches
the cache at clock 0; one tick of 30001 ms both evicts the entry (age above
30000 ms) and fires the queued marker (refreshing the request record to
30001); the subsequent send then finds a younger-than-5000 ms record and
emits nothing at all — in particular no new broadcast ARP request. -/
def c6s1 : NetworkInterface := send_datagram 0 (initInterface 1 2) ⟨⟨64, 99⟩⟩ 10

def c6s2 : NetworkInterface := send_datagram 0 c6s1 ⟨⟨64, 99⟩⟩ 10

def c6s3 : NetworkInterface :=
  (recv_frame 0 c6s2 ⟨⟨ETHERNET_BROADCAST, 7, TYPE_ARP⟩,
      .arp ⟨OPCODE_REQUEST, 7, 10, 0, 2⟩⟩).1

def c6p4 : Nat × NetworkInterface := tick 0 c6s3 30001

/-- Counterexample to C6 as stated: the entry for IP 10 is learned at clock
0, a tick with cumulative elapsed time 30001 ms (> 30000 ms) evicts it and
no ARP traffic refreshed it, yet the subsequent send to IP 10 appends no
frame whatsoever to the outbound-ready queue — no new broadcast ARP request
is emitted. -/
theorem c6_counterexample :
    alookup 10 c6s3.ARP_table = some ⟨7, 0⟩
    ∧ c6p4.1 = 30001
    ∧ alookup 10 c6p4.2.ARP_table = none
    ∧ (send_datagram c6p4.1 c6p4.2 ⟨⟨64, 99⟩⟩ 10).ready2_sent_q =
        c6p4.2.ready2_sent_q := by
  decide

/-- C6 (amended): `tick` evicts exactly the cache entries whose age exceeds
`MAX_CACHE_TIME` (30000 ms); a send toward an IP with no live cache entry
never frames the datagram as an IPv4 frame (so a stale link address is never
used), and it emits a fresh broadcast ARP request whenever the IP's
pending-request record is absent or at least 5000 ms old — but emits
nothing when that record is younger than 5000 ms. -/
theorem c6_expiry_and_resend :
    (∀ (t : Nat) (s : NetworkInterface) (ms : Nat),
        ((tick t s ms).2).ARP_table = s.ARP_table.filter
          (fun kv => !(decide (MAX_CACHE_TIME < wsub ((t + ms) % WSIZE) kv.2.caching_time))))
    ∧ (∀ (t : Nat) (s : NetworkInterface) (dg : InternetDatagram) (ip : Nat),
        alookup ip s.ARP_table = none →
        ((send_datagram t s dg ip).ready2_sent_q.drop s.ready2_sent_q.length).filter
          (fun f => f.header.type == TYPE_IPv4) = [])
    ∧ (∀ (t : Nat) (s : NetworkInterface) (dg : InternetDatagram) (ip : Nat),
        alookup ip s.ARP_table = none →
        (alookup ip s.request_history = none ∨
          ∃ last, alookup ip s.request_history = some last ∧
            MAX_WAITING_TIME ≤ wsub t last) →
        (send_datagram t s dg ip).ready2_sent_q =
          s.ready2_sent_q ++ [arpRequestFrame s ip])
    ∧ (∀ (t : Nat) (s : NetworkInterface) (dg : InternetDatagram) (ip last : Nat),
        alookup ip s.ARP_table = none →
        alookup ip s.request_history = some last →
        wsub t last < MAX_WAITING_TIME →
        (send_datagram t s dg ip).ready2_sent_q = s.ready2_sent_q) := by
  refine ⟨?_, ?_, ?_, ?_⟩
  · intro t s ms
    rfl
  · intro t s dg ip h1
    cases h2 : alookup ip s.request_history with
    | none =>
        rw [send_datagram_new t s dg ip h1 h2]
        simp [List.drop_left, arpRequestFrame, make_ethernet_frame, TYPE_ARP, TYPE_IPv4]
    | some last =>
        by_cases h3 : wsub t last < MAX_WAITING_TIME
        · rw [send_datagram_young t s dg ip last h1 h2 h3]
          simp
        · rw [send_datagram_stale t s dg ip last h1 h2 (by omega)]
          simp [List.drop_left, arpRequestFrame, make_ethernet_frame, TYPE_ARP, TYPE_IPv4]
  · intro t s dg ip h1 h2
    rcases h2 with h2 | ⟨last, h2, h3⟩
    · rw [send_datagram_new t s dg ip h1 h2]
    · rw [send_datagram_stale t s dg ip last h1 h2 h3]
  · intro t s dg ip last h1 h2 h3
    rw [send_datagram_young t s dg ip last h1 h2 h3]

/-- Witness for the amended C6 at concrete states. -/
theorem c6_expiry_and_resend_witness :
    ((tick 0 c6s3 30001).2.ARP_table = c6s3.ARP_table.filter
        (fun kv => !(decide (MAX_CACHE_TIME < wsub ((0 + 30001) % WSIZE) kv.2.caching_time))))
    ∧ (((send_datagram 0 (initInterface 1 2) ⟨⟨64, 99⟩⟩ 10).ready2_sent_q.drop
          (initInterface 1 2).ready2_sent_q.length).filter
          (fun f => f.header.type == TYPE_IPv4) = [])
    ∧ ((send_datagram 0 (initInterface 1 2) ⟨⟨64, 99⟩⟩ 10).ready2_sent_q =
        (initInterface 1 2).ready2_sent_q ++ [arpRequestFrame (initInterface 1 2) 10])
    ∧ ((send_datagram 1 c6s1 ⟨⟨64, 99⟩⟩ 10).ready2_sent_q = c6s1.ready2_sent_q) :=
  ⟨c6_expiry_and_resend.1 0 c6s3 30001,
   c6_expiry_and_resend.2.1 0 (initInterface 1 2) ⟨⟨64, 99⟩⟩ 10 rfl,
   c6_expiry_and_resend.2.2.1 0 (initInterface 1 2) ⟨⟨64, 99⟩⟩ 10 rfl (Or.inl rfl),
   c6_expiry_and_resend.2.2.2 1 c6s1 ⟨⟨64, 99⟩⟩ 10 0 rfl (by decide) (by decide)⟩

/-! ## Claim C9: retry markers carry SIZE_MAX and the wrap-around retention test -/

/-- C9: a retry marker queued by `send_datagram` (while the IP's request
record is younger than 5000 ms) carries creation timestamp `SIZE_MAX`; on a
tick at which the marker's request record is still younger than 5000 ms the
marker is retained iff `(curr_time - SIZE_MAX) mod 2^64 < 5000`, and that
quantity equals `(curr_time + 1) mod 2^64`; hence once the clock reaches
4999 ms every such not-yet-due marker is silently discarded by the next
tick. -/
theorem c9_marker_sizemax :
    (∀ (t : Nat) (s : NetworkInterface) (dg : InternetDatagram) (ip last : Nat),
        alookup ip s.ARP_table = none →
        alookup ip s.request_history = some last →
        wsub t last < MAX_WAITING_TIME →
        (send_datagram t s dg ip).waiting_q = s.waiting_q ++
          [⟨ip, arpRequestFrame s ip, SIZE_MAX64⟩, ⟨ip, noMacFrame s dg, t⟩])
    ∧ (∀ (t' : Nat) (tempq : List Waiting_Packet) (hist : List (Nat × Nat))
          (pushes : List EthernetFrame) (p : Waiting_Packet),
        p.time = SIZE_MAX64 →
        p.waiting_frame.header.type = TYPE_ARP →
        (alookup p.dst_ip hist).isSome = true →
        wsub t' ((alookup p.dst_ip hist).getD 0) < MAX_WAITING_TIME →
        tick_item t' (tempq, hist, pushes) p =
          ((if wsub t' SIZE_MAX64 < MAX_WAITING_TIME then tempq ++ [p] else tempq),
           hist, pushes))
    ∧ (∀ t' : Nat, wsub t' SIZE_MAX64 = (t' + 1) % WSIZE)
    ∧ (∀ t' : Nat, 4999 ≤ t' → t' + 1 < WSIZE →
        ¬(wsub t' SIZE_MAX64 < MAX_WAITING_TIME)) := by
  refine ⟨?_, ?_, ?_, ?_⟩
  · intro t s dg ip last h1 h2 h3
    rw [send_datagram_young t s dg ip last h1 h2 h3]
  · intro t' tempq hist pushes p h1 h2 h3 h4
    have hfire : ¬(MAX_WAITING_TIME ≤ wsub t' ((alookup p.dst_ip hist).getD 0) ∧
        p.waiting_frame.header.type = TYPE_ARP ∧
        p.waiting_frame.header.dst = ETHERNET_BROADCAST) := by
      rintro ⟨h, -, -⟩
      omega
    have hnip : ¬p.waiting_frame.header.type = TYPE_IPv4 := by
      rw [h2]
      decide
    simp only [tick_item, h3, if_true, if_neg hfire, h1]
    by_cases h5 : wsub t' SIZE_MAX64 < MAX_WAITING_TIME
    · rw [if_pos (Or.inr h5), if_pos h5]
    · rw [if_neg ?_, if_neg h5]
      rintro (h | h)
      · exact hnip h
      · exact h5 h
  · intro t'
    exact wsub_sizemax t'
  · intro t' h1 h2
    rw [wsub_sizemax t']
    unfold MAX_WAITING_TIME WSIZE at *
    omega

def c9s : NetworkInterface := send_datagram 0 (initInterface 1 2) ⟨⟨64, 99⟩⟩ 10

def c9marker : Waiting_Packet :=
  ⟨10, make_ethernet_frame ETHERNET_BROADCAST 1 TYPE_ARP
      (.arp (make_arp_message 1 2 0 10 OPCODE_REQUEST)), SIZE_MAX64⟩

/-- Witness for C9 at concrete states: the marker queued by a send at clock
3, its retention on a tick at clock 3, and the discard bound at clock
4999. -/
theorem c9_marker_sizemax_witness :
    ((send_datagram 3 c9s ⟨⟨64, 99⟩⟩ 10).waiting_q = c9s.waiting_q ++
        [⟨10, arpRequestFrame c9s 10, SIZE_MAX64⟩, ⟨10, noMacFrame c9s ⟨⟨64, 99⟩⟩, 3⟩])
    ∧ (tick_item 3 ([], [(10, 0)], []) c9marker =
        ((if wsub 3 SIZE_MAX64 < MAX_WAITING_TIME then [c9marker] else []), [(10, 0)], []))
    ∧ wsub 3 SIZE_MAX64 = (3 + 1) % WSIZE
    ∧ ¬(wsub 4999 SIZE_MAX64 < MAX_WAITING_TIME) :=
  ⟨c9_marker_sizemax.1 3 c9s ⟨⟨64, 99⟩⟩ 10 0 rfl (by decide) (by decide),
   by
     have h := c9_marker_sizemax.2.1 3 [] [(10, 0)] [] c9marker rfl rfl (by decide) (by decide)
     simpa using h,
   c9_marker_sizemax.2.2.1 3,
   c9_marker_sizemax.2.2.2 4999 (by omega) (by decide)⟩

/-! ## Claim C5: TTL policy in `route_single_dgram` -/

/-- C5: a datagram arriving with TTL 0 is dropped silently, untouched (no
TTL decrement, no checksum recomputation, nothing handed to an interface);
after a successful route lookup the TTL is decremented by 1, and if the
result is 0 the datagram is dropped without checksum recomputation or
sending; only with a positive decremented TTL is the checksum recomputed
and the datagram handed to the chosen interface with the route's next hop
(or its own destination when the route is direct). -/
theorem c5_ttl_policy (table : List RoutingTableElement) (d : InternetDatagram) :
    (d.header.ttl = 0 → route_single_dgram table d = ⟨d, false, none⟩)
    ∧ (∀ k, lookupRouteIdx table d.header.dst = some k → d.header.ttl = 1 →
        route_single_dgram table d = ⟨⟨⟨0, d.header.dst⟩⟩, false, none⟩)
    ∧ (∀ k, lookupRouteIdx table d.header.dst = some k → 2 ≤ d.header.ttl →
        route_single_dgram table d =
          ⟨⟨⟨d.header.ttl - 1, d.header.dst⟩⟩, true,
            some ((table.getD k ⟨0, 0, none, 0⟩).interface_num_,
                  (table.getD k ⟨0, 0, none, 0⟩).next_hop_.getD d.header.dst)⟩) := by
  refine ⟨?_, ?_, ?_⟩
  · intro h
    simp [route_single_dgram, h]
  · intro k hk h1
    have hne : ¬(lookupRoute table d.header.dst).1 = -1 := by
      intro hh
      simp [lookupRouteIdx, hh] at hk
    have hk' : (lookupRoute table d.header.dst).1.toNat = k := by
      simp [lookupRouteIdx, hne] at hk
      exact hk
    have h0 : ¬d.header.ttl ≤ 0 := by omega
    simp [route_single_dgram, h0, hne, h1]
  · intro k hk h2
    have hne : ¬(lookupRoute table d.header.dst).1 = -1 := by
      intro hh
      simp [lookupRouteIdx, hh] at hk
    have hk' : (lookupRoute table d.header.dst).1.toNat = k := by
      simp [lookupRouteIdx, hne] at hk
      exact hk
    have h0 : ¬d.header.ttl ≤ 0 := by omega
    have h1 : ¬d.header.ttl - 1 ≤ 0 := by omega
    simp [route_single_dgram, h0, hne, h1, hk']

def c5T : List RoutingTableElement :=
  add_route (add_route [] 0 0 (some 100) 0) 0xC0A80000 24 none 1

/-- Witness for C5 on a two-route table: TTL 0 untouched, TTL 1 expires
after decrement, TTL 64 is forwarded with checksum recomputed. -/
theorem c5_ttl_policy_witness :
    (route_single_dgram c5T ⟨⟨0, 0xC0A80005⟩⟩ = ⟨⟨⟨0, 0xC0A80005⟩⟩, false, none⟩)
    ∧ (route_single_dgram c5T ⟨⟨1, 0xC0A80005⟩⟩ = ⟨⟨⟨0, 0xC0A80005⟩⟩, false, none⟩)
    ∧ (route_single_dgram c5T ⟨⟨64, 0xC0A80005⟩⟩ =
        ⟨⟨⟨63, 0xC0A80005⟩⟩, true,
          some ((c5T.getD 1 ⟨0, 0, none, 0⟩).interface_num_,
                (c5T.getD 1 ⟨0, 0, none, 0⟩).next_hop_.getD 0xC0A80005)⟩) :=
  ⟨(c5_ttl_policy c5T ⟨⟨0, 0xC0A80005⟩⟩).1 rfl,
   (c5_ttl_policy c5T ⟨⟨1, 0xC0A80005⟩⟩).2.1 1 (by decide) rfl,
   (c5_ttl_policy c5T ⟨⟨64, 0xC0A80005⟩⟩).2.2 1 (by decide) (by decide)⟩

/-! ## Claim C1: the route-selection loop computes the longest-prefix match -/

/-- The mask the specification describes: the top `prefix_length` bits set
(`prefix_length` 0 giving the all-zero mask). -/
def specMask (prefix_length : Nat) : Nat := 2 ^ 32 - 2 ^ (32 - prefix_length)

/-- The specification's match condition: `destination_ip AND mask` equals
the entry's route prefix. -/
def SpecMatches (e : RoutingTableElement) (dest : Nat) : Prop :=
  dest &&& specMask e.prefix_length_ = e.route_prefix_

/-- The match condition the code evaluates. -/
def codeMatches (e : RoutingTableElement) (dest : Nat) : Prop :=
  codeBitmask e.prefix_length_ &&& dest = e.route_prefix_

instance (e : RoutingTableElement) (dest : Nat) : Decidable (codeMatches e dest) := by
  unfold codeMatches
  infer_instance

lemma codeBitmask_eq_specMask : ∀ L : Fin 33, codeBitmask L.val = specMask L.val := by
  decide

lemma codeMatches_iff_specMatches (e : RoutingTableElement) (dest : Nat)
    (h : e.prefix_length_ ≤ 32) : codeMatches e dest ↔ SpecMatches e dest := by
  unfold codeMatches SpecMatches
  rw [codeBitmask_eq_specMask ⟨e.prefix_length_, by omega⟩, Nat.land_comm]

lemma lookupAux_append (dest : Nat) (l1 l2 : List RoutingTableElement) :
    ∀ (i : Nat) (acc : Int × Int),
    lookupAux dest (l1 ++ l2) i acc =
      lookupAux dest l2 (i + l1.length) (lookupAux dest l1 i acc) := by
  induction l1 with
  | nil => intro i acc; simp [lookupAux]
  | cons e rest ih =>
      intro i acc
      simp only [List.cons_append, lookupAux, List.append_eq]
      rw [ih]
      have h : i + 1 + rest.length = i + (rest.length + 1) := by omega
      rw [h]
      rfl

/-- What the scan's accumulator means once the whole table was processed:
either no entry matched (both components still `-1`), or the pair holds the
index and prefix length of a matching entry that beats every other match by
prefix length, later position breaking ties. -/
def IsBest (table : List RoutingTableElement) (dest : Nat) (r : Int × Int) : Prop :=
  (r = (-1, -1) ∧ ∀ (j : Nat) (e : RoutingTableElement),
      table[j]? = some e → ¬codeMatches e dest)
  ∨ (∃ (k : Nat) (e : RoutingTableElement), table[k]? = some e ∧
      r = ((k : Int), (e.prefix_length_ : Int)) ∧ codeMatches e dest ∧
      ∀ (j : Nat) (f : RoutingTableElement), table[j]? = some f →
        codeMatches f dest →
        (f.prefix_length_ < e.prefix_length_ ∨
         (f.prefix_length_ = e.prefix_length_ ∧ j ≤ k)))

lemma lookupRoute_isBest (table : List RoutingTableElement) (dest : Nat) :
    IsBest table dest (lookupRoute table dest) := by
  induction table using List.reverseRecOn with
  | nil =>
      left
      refine ⟨rfl, ?_⟩
      intro j e h
      simp at h
  | append_singleton t e ih =>
      unfold lookupRoute at *
      rw [lookupAux_append, Nat.zero_add]
      simp only [lookupAux, List.length_nil]
      by_cases hm : codeMatches e dest
      · by_cases hle : (lookupAux dest t 0 (-1, -1)).2 ≤ (e.prefix_length_ : Int)
        · -- the new entry is taken: it matches and its length is at least the best so far
          rw [if_pos ⟨hm, hle⟩]
          right
          refine ⟨t.length, e, List.getElem?_concat_length t e, rfl, hm, ?_⟩
          intro j f hj hf
          rcases Nat.lt_trichotomy j t.length with hlt | heq | hgt
          · rw [List.getElem?_append_left hlt] at hj
            rcases ih with ⟨hr, hnone⟩ | ⟨k0, e0, hk0, hr0, hm0, hbest0⟩
            · exact absurd hf (hnone j f hj)
            · have hlen0 : e0.prefix_length_ ≤ e.prefix_length_ := by
                rw [hr0] at hle
                simp at hle
                omega
              rcases hbest0 j f hj hf with h | ⟨h, -⟩
              · left
                omega
              · by_cases hcase : f.prefix_length_ < e.prefix_length_
                · left
                  exact hcase
                · right
                  omega
          · subst heq
            rw [List.getElem?_concat_length] at hj
            cases hj
            right
            exact ⟨rfl, Nat.le_refl _⟩
          · have : (t ++ [e]).length ≤ j := by
              simp
              omega
            rw [List.getElem?_eq_none this] at hj
            cases hj
        · -- the new entry matches but a strictly longer match was found before
          rw [if_neg (fun hc => hle hc.2)]
          rcases ih with ⟨hr, -⟩ | ⟨k0, e0, hk0, hr0, hm0, hbest0⟩
          · exfalso
            rw [hr] at hle
            simp at hle
            omega
          · right
            have hk0lt : k0 < t.length := by
              rcases List.getElem?_eq_some_iff.mp hk0 with ⟨hlt, -⟩
              exact hlt
            have hlen : e.prefix_length_ < e0.prefix_length_ := by
              rw [hr0] at hle
              simp at hle
              omega
            refine ⟨k0, e0, by rw [List.getElem?_append_left hk0lt]; exact hk0, hr0, hm0, ?_⟩
            intro j f hj hf
            rcases Nat.lt_trichotomy j t.length with hlt | heq | hgt
            · rw [List.getElem?_append_left hlt] at hj
              exact hbest0 j f hj hf
            · subst heq
              rw [List.getElem?_concat_length] at hj
              cases hj
              left
              exact hlen
            · have : (t ++ [e]).length ≤ j := by
                simp
                omega
              rw [List.getElem?_eq_none this] at hj
              cases hj
      · -- the new entry does not match: the accumulator is unchanged
        rw [if_neg (fun hc => hm hc.1)]
        rcases ih with ⟨hr, hnone⟩ | ⟨k0, e0, hk0, hr0, hm0, hbest0⟩
        · left
          refine ⟨hr, ?_⟩
          intro j f hj
          rcases Nat.lt_trichotomy j t.length with hlt | heq | hgt
          · rw [List.getElem?_append_left hlt] at hj
            exact hnone j f hj
          · subst heq
            rw [List.getElem?_concat_length] at hj
            cases hj
            exact hm
          · have : (t ++ [e]).length ≤ j := by
              simp
              omega
            rw [List.getElem?_eq_none this] at hj
            cases hj
        · right
          have hk0lt : k0 < t.length := by
            rcases List.getElem?_eq_some_iff.mp hk0 with ⟨hlt, -⟩
            exact hlt
          refine ⟨k0, e0, by rw [List.getElem?_append_left hk0lt]; exact hk0, hr0, hm0, ?_⟩
          intro j f hj hf
          rcases Nat.lt_trichotomy j t.length with hlt | heq | hgt
          · rw [List.getElem?_append_left hlt] at hj
            exact hbest0 j f hj hf
          · subst heq
            rw [List.getElem?_concat_length] at hj
            cases hj
            exact absurd hf hm
          · have : (t ++ [e]).length ≤ j := by
              simp
              omega
            rw [List.getElem?_eq_none this] at hj
            cases hj

lemma matches_iff_of_mem {table : List RoutingTableElement} (dest : Nat)
    (hl : ∀ e ∈ table, e.prefix_length_ ≤ 32) {j : Nat} {e : RoutingTableElement}
    (hj : table[j]? = some e) : codeMatches e dest ↔ SpecMatches e dest := by
  apply codeMatches_iff_specMatches
  apply hl
  rcases List.getElem?_eq_some_iff.mp hj with ⟨hlt, hget⟩
  rw [← hget]
  exact List.getElem_mem hlt

/-- C1: for every routing table (all prefix lengths in 0..32, as the data
model requires) and destination, the loop in `route_single_dgram` selects
exactly the entries whose masked destination equals their prefix — the mask
having the top `prefix_length` bits set, length 0 giving the all-zero
mask — and among the matching entries returns the one with the greatest
prefix length, ties resolved in favor of the higher insertion index; with no
matching entry it reports no route, and the datagram is dropped. -/
theorem c1_longest_prefix (table : List RoutingTableElement) (dest : Nat)
    (hl : ∀ e ∈ table, e.prefix_length_ ≤ 32) :
    (lookupRouteIdx table dest = none ↔
      ∀ (j : Nat) (e : RoutingTableElement), table[j]? = some e → ¬SpecMatches e dest)
    ∧ (∀ k : Nat, lookupRouteIdx table dest = some k ↔
        ∃ e, table[k]? = some e ∧ SpecMatches e dest ∧
          ∀ (j : Nat) (f : RoutingTableElement), table[j]? = some f →
            SpecMatches f dest →
            (f.prefix_length_ < e.prefix_length_ ∨
             (f.prefix_length_ = e.prefix_length_ ∧ j ≤ k)))
    ∧ (∀ d : InternetDatagram, lookupRouteIdx table d.header.dst = none →
        (route_single_dgram table d).sent = none) := by
  have hb := lookupRoute_isBest table dest
  refine ⟨?_, ?_, ?_⟩
  · constructor
    · intro hidx j e hj hs
      rcases hb with ⟨hr, hnone⟩ | ⟨k0, e0, hk0, hr0, hm0, hbest0⟩
      · exact hnone j e hj ((matches_iff_of_mem dest hl hj).mpr hs)
      · have h1 : ¬(lookupRoute table dest).1 = -1 := by
          rw [hr0]
          simp
        simp [lookupRouteIdx, h1] at hidx
    · intro hno
      rcases hb with ⟨hr, -⟩ | ⟨k0, e0, hk0, hr0, hm0, -⟩
      · simp [lookupRouteIdx, hr]
      · exact absurd ((matches_iff_of_mem dest hl hk0).mp hm0) (hno k0 e0 hk0)
  · intro k
    constructor
    · intro hidx
      rcases hb with ⟨hr, -⟩ | ⟨k0, e0, hk0, hr0, hm0, hbest0⟩
      · simp [lookupRouteIdx, hr] at hidx
      · have h1 : ¬(lookupRoute table dest).1 = -1 := by
          rw [hr0]
          simp
        have hk : k = k0 := by
          simp [lookupRouteIdx, h1, hr0] at hidx
          omega
        subst hk
        refine ⟨e0, hk0, (matches_iff_of_mem dest hl hk0).mp hm0, ?_⟩
        intro j f hj hf
        exact hbest0 j f hj ((matches_iff_of_mem dest hl hj).mpr hf)
    · rintro ⟨e, he, hse, hbest⟩
      rcases hb with ⟨hr, hnone⟩ | ⟨k0, e0, hk0, hr0, hm0, hbest0⟩
      · exact absurd ((matches_iff_of_mem dest hl he).mpr hse) (hnone k e he)
      · have hce : codeMatches e dest := (matches_iff_of_mem dest hl he).mpr hse
        have hse0 : SpecMatches e0 dest := (matches_iff_of_mem dest hl hk0).mp hm0
        have hx := hbest0 k e he hce
        have hy := hbest k0 e0 hk0 hse0
        have hk : k0 = k := by omega
        subst hk
        have h1 : ¬(lookupRoute table dest).1 = -1 := by
          rw [hr0]
          simp
        simp [lookupRouteIdx, h1, hr0]
  · intro d hidx
    have h1 : (lookupRoute table d.header.dst).1 = -1 := by
      by_cases h : (lookupRoute table d.header.dst).1 = -1
      · exact h
      · simp [lookupRouteIdx, h] at hidx
    by_cases h0 : d.header.ttl ≤ 0
    · simp [route_single_dgram, h0]
    · simp [route_single_dgram, h0, h1]

/-- A table with a default route and two identical more specific routes
added at different times. -/
def c1T : List RoutingTableElement :=
  add_route (add_route (add_route [] 0 0 (some 100) 0)
    0xC0A80000 24 (some 7) 1) 0xC0A80000 24 (some 8) 2

/-- Witness for C1 on a table with a duplicate prefix: all hypotheses hold
and the characterization applies. -/
theorem c1_longest_prefix_witness :
    (lookupRouteIdx c1T 0xC0A80005 = none ↔
      ∀ (j : Nat) (e : RoutingTableElement), c1T[j]? = some e →
        ¬SpecMatches e 0xC0A80005)
    ∧ (∀ k : Nat, lookupRouteIdx c1T 0xC0A80005 = some k ↔
        ∃ e, c1T[k]? = some e ∧ SpecMatches e 0xC0A80005 ∧
          ∀ (j : Nat) (f : RoutingTableElement), c1T[j]? = some f →
            SpecMatches f 0xC0A80005 →
            (f.prefix_length_ < e.prefix_length_ ∨
             (f.prefix_length_ = e.prefix_length_ ∧ j ≤ k)))
    ∧ (∀ d : InternetDatagram, lookupRouteIdx c1T d.header.dst = none →
        (route_single_dgram c1T d).sent = none) :=
  c1_longest_prefix c1T 0xC0A80005 (by decide)

/-! ## Claim C3: ARP request throttling along send/tick traces -/

/-- In send/tick traces, any ARP-typed broadcast frame sitting in the
pending queue is a retry marker built by `send_datagram`; such a frame is a
broadcast ARP request for `ip` exactly when the item is tagged with `ip`. -/
def MarkerOk (ip : Nat) (p : Waiting_Packet) : Prop :=
  p.waiting_frame.header.type = TYPE_ARP →
  p.waiting_frame.header.dst = ETHERNET_BROADCAST →
  (isArpRequestFor ip p.waiting_frame = true ↔ p.dst_ip = ip)

lemma tick_item_eq (t' : Nat)
    (acc : List Waiting_Packet × List (Nat × Nat) × List EthernetFrame)
    (p : Waiting_Packet) (r : Nat) (hrec : alookup p.dst_ip acc.2.1 = some r) :
    tick_item t' acc p =
      if MAX_WAITING_TIME ≤ wsub t' r ∧ p.waiting_frame.header.type = TYPE_ARP ∧
          p.waiting_frame.header.dst = ETHERNET_BROADCAST then
        (acc.1, ainsert p.dst_ip t' acc.2.1, acc.2.2 ++ [p.waiting_frame])
      else if p.waiting_frame.header.type = TYPE_IPv4 ∨
          wsub t' p.time < MAX_WAITING_TIME then
        (acc.1 ++ [p], acc.2.1, acc.2.2)
      else
        (acc.1, acc.2.1, acc.2.2) := by
  simp [tick_item, hrec]

lemma tick_fold_spec (ip t' : Nat) :
    ∀ (ws : List Waiting_Packet)
      (acc : List Waiting_Packet × List (Nat × Nat) × List EthernetFrame),
    (∀ p ∈ ws, (alookup p.dst_ip acc.2.1).isSome = true) →
    (∀ p ∈ ws, MarkerOk ip p) →
    ∃ newp : List EthernetFrame,
      (ws.foldl (tick_item t') acc).2.2 = acc.2.2 ++ newp
      ∧ (∀ k, (alookup k acc.2.1).isSome = true →
          (alookup k (ws.foldl (tick_item t') acc).2.1).isSome = true)
      ∧ (∀ k v, alookup k (ws.foldl (tick_item t') acc).2.1 = some v →
          alookup k acc.2.1 = some v ∨ v = t')
      ∧ (∀ p ∈ (ws.foldl (tick_item t') acc).1, p ∈ acc.1 ∨ p ∈ ws)
      ∧ (alookup ip acc.2.1 = none →
          alookup ip (ws.foldl (tick_item t') acc).2.1 = none
          ∧ newp.filter (isArpRequestFor ip) = [])
      ∧ (∀ r, alookup ip acc.2.1 = some r →
          (newp.filter (isArpRequestFor ip) = []
            ∧ alookup ip (ws.foldl (tick_item t') acc).2.1 = some r)
          ∨ ((newp.filter (isArpRequestFor ip)).length = 1
            ∧ MAX_WAITING_TIME ≤ wsub t' r
            ∧ alookup ip (ws.foldl (tick_item t') acc).2.1 = some t')) := by
  intro ws
  induction ws with
  | nil =>
      intro acc _ _
      refine ⟨[], by simp, fun k h => h, fun k v h => Or.inl h, ?_, ?_, ?_⟩
      · intro p hp
        exact Or.inl hp
      · intro h
        exact ⟨h, rfl⟩
      · intro r h
        exact Or.inl ⟨rfl, h⟩
  | cons p rest ih =>
      intro acc hrec hmk
      have hrecp := hrec p (List.mem_cons_self p rest)
      obtain ⟨rp, hrp⟩ := Option.isSome_iff_exists.mp hrecp
      have hmkp := hmk p (List.mem_cons_self p rest)
      rw [List.foldl_cons, tick_item_eq t' acc p rp hrp]
      by_cases hfire : MAX_WAITING_TIME ≤ wsub t' rp ∧
          p.waiting_frame.header.type = TYPE_ARP ∧
          p.waiting_frame.header.dst = ETHERNET_BROADCAST
      · -- the fire branch: the marker is moved to the ready queue and the
        -- request record is refreshed to the new clock value
        rw [if_pos hfire]
        set acc' : List Waiting_Packet × List (Nat × Nat) × List EthernetFrame :=
          (acc.1, ainsert p.dst_ip t' acc.2.1, acc.2.2 ++ [p.waiting_frame]) with hacc'
        have hrec' : ∀ q ∈ rest, (alookup q.dst_ip acc'.2.1).isSome = true := by
          intro q hq
          exact isSome_alookup_ainsert p.dst_ip t' (hrec q (List.mem_cons_of_mem p hq))
        have hmk' : ∀ q ∈ rest, MarkerOk ip q :=
          fun q hq => hmk q (List.mem_cons_of_mem p hq)
        obtain ⟨newp0, hpush0, hmono0, hvals0, hmem0, hnone0, hsome0⟩ := ih acc' hrec' hmk'
        refine ⟨p.waiting_frame :: newp0, ?_, ?_, ?_, ?_, ?_, ?_⟩
        · rw [hpush0]
          simp [hacc']
        · intro k hk
          exact hmono0 k (isSome_alookup_ainsert p.dst_ip t' hk)
        · intro k v hv
          rcases hvals0 k v hv with h | h
          · rw [alookup_ainsert] at h
            by_cases hkp : k = p.dst_ip
            · rw [if_pos hkp] at h
              cases h
              exact Or.inr rfl
            · rw [if_neg hkp] at h
              exact Or.inl h
          · exact Or.inr h
        · intro q hq
          rcases hmem0 q hq with h | h
          · exact Or.inl h
          · exact Or.inr (List.mem_cons_of_mem p h)
        · intro hnone
          have hne : p.dst_ip ≠ ip := by
            intro he
            rw [he, hnone] at hrp
            cases hrp
          have hnone' : alookup ip acc'.2.1 = none := by
            rw [hacc']
            simpa [alookup_ainsert_ne t' acc.2.1 (fun he => hne he.symm)] using hnone
          obtain ⟨hres, hfil⟩ := hnone0 hnone'
          have hpf : isArpRequestFor ip p.waiting_frame = false := by
            cases h : isArpRequestFor ip p.waiting_frame
            · rfl
            · exact absurd ((hmkp hfire.2.1 hfire.2.2).mp h) hne
          refine ⟨hres, ?_⟩
          simp [List.filter_cons, hpf, hfil]
        · intro r hr
          by_cases hdst : p.dst_ip = ip
          · -- the fired marker is for the observed ip
            have hrpr : rp = r := by
              rw [hdst, hr] at hrp
              cases hrp
              rfl
            have hsome' : alookup ip acc'.2.1 = some t' := by
              rw [hacc']
              simp [hdst, alookup_ainsert_self]
            have hpf : isArpRequestFor ip p.waiting_frame = true :=
              (hmkp hfire.2.1 hfire.2.2).mpr hdst
            rcases hsome0 t' hsome' with ⟨hfil, hres⟩ | ⟨-, hcond, -⟩
            · right
              refine ⟨?_, ?_, hres⟩
              · simp [List.filter_cons, hpf, hfil]
              · rw [hrpr] at hfire
                exact hfire.1
            · exfalso
              rw [wsub_self] at hcond
              simp [MAX_WAITING_TIME] at hcond
          · -- the fired marker is for another ip
            have hsome' : alookup ip acc'.2.1 = some r := by
              rw [hacc']
              simpa [alookup_ainsert_ne t' acc.2.1 (fun he => hdst he.symm)] using hr
            have hpf : isArpRequestFor ip p.waiting_frame = false := by
              cases h : isArpRequestFor ip p.waiting_frame
              · rfl
              · exact absurd ((hmkp hfire.2.1 hfire.2.2).mp h) hdst
            rcases hsome0 r hsome' with ⟨hfil, hres⟩ | ⟨hlen, hcond, hres⟩
            · left
              refine ⟨?_, hres⟩
              simp [List.filter_cons, hpf, hfil]
            · right
              refine ⟨?_, hcond, hres⟩
              simp [List.filter_cons, hpf, hlen]
      · rw [if_neg hfire]
        have hnext : ∀ (accn : List Waiting_Packet × List (Nat × Nat) × List EthernetFrame),
            accn.2.1 = acc.2.1 → accn.2.2 = acc.2.2 → accn.1 = acc.1 ∨ accn.1 = acc.1 ++ [p] →
            ∃ newp : List EthernetFrame,
              (rest.foldl (tick_item t') accn).2.2 = acc.2.2 ++ newp
              ∧ (∀ k, (alookup k acc.2.1).isSome = true →
                  (alookup k (rest.foldl (tick_item t') accn).2.1).isSome = true)
              ∧ (∀ k v, alookup k (rest.foldl (tick_item t') accn).2.1 = some v →
                  alookup k acc.2.1 = some v ∨ v = t')
              ∧ (∀ q ∈ (rest.foldl (tick_item t') accn).1, q ∈ acc.1 ∨ q ∈ p :: rest)
              ∧ (alookup ip acc.2.1 = none →
                  alookup ip (rest.foldl (tick_item t') accn).2.1 = none
                  ∧ newp.filter (isArpRequestFor ip) = [])
              ∧ (∀ r, alookup ip acc.2.1 = some r →
                  (newp.filter (isArpRequestFor ip) = []
                    ∧ alookup ip (rest.foldl (tick_item t') accn).2.1 = some r)
                  ∨ ((newp.filter (isArpRequestFor ip)).length = 1
                    ∧ MAX_WAITING_TIME ≤ wsub t' r
                    ∧ alookup ip (rest.foldl (tick_item t') accn).2.1 = some t')) := by
          intro accn h21 h22 h1
          have hrec' : ∀ q ∈ rest, (alookup q.dst_ip accn.2.1).isSome = true := by
            intro q hq
            rw [h21]
            exact hrec q (List.mem_cons_of_mem p hq)
          have hmk' : ∀ q ∈ rest, MarkerOk ip q :=
            fun q hq => hmk q (List.mem_cons_of_mem p hq)
          obtain ⟨newp0, hpush0, hmono0, hvals0, hmem0, hnone0, hsome0⟩ := ih accn hrec' hmk'
          rw [h21] at hmono0 hvals0 hnone0 hsome0
          rw [h22] at hpush0
          refine ⟨newp0, hpush0, hmono0, hvals0, ?_, hnone0, hsome0⟩
          intro q hq
          rcases hmem0 q hq with h | h
          · rcases h1 with h1 | h1
            · rw [h1] at h
              exact Or.inl h
            · rw [h1] at h
              rcases List.mem_append.mp h with h | h
              · exact Or.inl h
              · have hqp := List.mem_singleton.mp h
                rw [hqp]
                exact Or.inr (List.mem_cons_self _ _)
          · exact Or.inr (List.mem_cons_of_mem p h)
        by_cases hkeep : p.waiting_frame.header.type = TYPE_IPv4 ∨
            wsub t' p.time < MAX_WAITING_TIME
        · rw [if_pos hkeep]
          exact hnext (acc.1 ++ [p], acc.2.1, acc.2.2) rfl rfl (Or.inr rfl)
        · rw [if_neg hkeep]
          exact hnext (acc.1, acc.2.1, acc.2.2) rfl rfl (Or.inl rfl)

lemma isArpRequestFor_request (s : NetworkInterface) (ip nh : Nat) :
    isArpRequestFor ip (arpRequestFrame s nh) = (nh == ip) := by
  simp [isArpRequestFor, arpRequestFrame, make_ethernet_frame, make_arp_message]

lemma tick_def (t : Nat) (s : NetworkInterface) (ms : Nat) :
    tick t s ms =
      ((t + ms) % WSIZE,
       { s with
          ARP_table := s.ARP_table.filter
            (fun kv => !(decide (MAX_CACHE_TIME <
              wsub ((t + ms) % WSIZE) kv.2.caching_time)))
          waiting_q := (s.waiting_q.foldl (tick_item ((t + ms) % WSIZE))
            ([], s.request_history, [])).1
          request_history := (s.waiting_q.foldl (tick_item ((t + ms) % WSIZE))
            ([], s.request_history, [])).2.1
          ready2_sent_q := s.ready2_sent_q ++ (s.waiting_q.foldl
            (tick_item ((t + ms) % WSIZE)) ([], s.request_history, [])).2.2 }) := rfl

/-- The invariant maintained along every send/tick trace: request-record
values never exceed the clock, every pending item has a request record, all
ARP broadcast frames in the pending queue are honest retry markers, no ARP
cache entry exists (only `recv_frame` creates them), and the event list of
broadcast-ARP-request appends for `ip` is chained 5000 ms apart with the
request record holding the time of the most recent event. -/
structure TraceInv (ip t : Nat) (s : NetworkInterface) (evs : List Nat) : Prop where
  hist_le : ∀ k v, alookup k s.request_history = some v → v ≤ t
  waiting_rec : ∀ p ∈ s.waiting_q, (alookup p.dst_ip s.request_history).isSome = true
  marker_ok : ∀ p ∈ s.waiting_q, MarkerOk ip p
  table_nil : s.ARP_table = []
  chain : List.Chain' (fun a b => a + MAX_WAITING_TIME ≤ b) evs
  rec_none : alookup ip s.request_history = none → evs = []
  rec_last : ∀ v, alookup ip s.request_history = some v → evs.getLast? = some v

lemma noMac_marker_ok (ip : Nat) (s : NetworkInterface) (dg : InternetDatagram)
    (nh t0 : Nat) : MarkerOk ip ⟨nh, noMacFrame s dg, t0⟩ := by
  intro h
  simp [noMacFrame, make_ethernet_frame, TYPE_IPv4, TYPE_ARP] at h

lemma request_marker_ok (ip : Nat) (s : NetworkInterface) (nh t0 : Nat) :
    MarkerOk ip ⟨nh, arpRequestFrame s nh, t0⟩ := by
  intro _ _
  rw [isArpRequestFor_request]
  simp

lemma send_step_inv (ip t : Nat) (s : NetworkInterface) (evs : List Nat)
    (inv : TraceInv ip t s evs) (ht : t < WSIZE) (dg : InternetDatagram) (nh : Nat) :
    TraceInv ip t (send_datagram t s dg nh)
      (evs ++ stepEvents ip (t, s) (.send dg nh)) := by
  have htab : alookup nh s.ARP_table = none := by
    rw [inv.table_nil]
    rfl
  cases hh : alookup nh s.request_history with
  | none =>
      have hst := send_datagram_new t s dg nh htab hh
      by_cases hnh : nh = ip
      · subst hnh
        have hev : stepEvents nh (t, s) (.send dg nh) = [t] := by
          simp only [stepEvents, stepOp, hst, List.drop_left]
          simp [List.filter_cons, isArpRequestFor_request]
        rw [hev, hst]
        have hevs : evs = [] := inv.rec_none hh
        subst hevs
        refine ⟨?_, ?_, ?_, inv.table_nil, ?_, ?_, ?_⟩
        · intro k v hv
          rw [alookup_ainsert] at hv
          by_cases hk : k = nh
          · rw [if_pos hk] at hv
            cases hv
            exact Nat.le_refl t
          · rw [if_neg hk] at hv
            exact inv.hist_le k v hv
        · intro p hp
          rcases List.mem_append.mp hp with hp | hp
          · exact isSome_alookup_ainsert nh t (inv.waiting_rec p hp)
          · rcases List.mem_singleton.mp hp with rfl
            simp [alookup_ainsert_self]
        · intro p hp
          rcases List.mem_append.mp hp with hp | hp
          · exact inv.marker_ok p hp
          · rcases List.mem_singleton.mp hp with rfl
            exact noMac_marker_ok nh s dg nh t
        · simp [List.chain'_singleton]
        · intro hq
          rw [alookup_ainsert_self] at hq
          cases hq
        · intro v hv
          rw [alookup_ainsert_self] at hv
          cases hv
          rfl
      · have hev : stepEvents ip (t, s) (.send dg nh) = [] := by
          simp only [stepEvents, stepOp, hst, List.drop_left]
          simp [List.filter_cons, isArpRequestFor_request, hnh]
        rw [hev, List.append_nil, hst]
        have hipq : alookup ip (ainsert nh t s.request_history) =
            alookup ip s.request_history :=
          alookup_ainsert_ne t s.request_history (fun he => hnh he.symm)
        refine ⟨?_, ?_, ?_, inv.table_nil, inv.chain, ?_, ?_⟩
        · intro k v hv
          rw [alookup_ainsert] at hv
          by_cases hk : k = nh
          · rw [if_pos hk] at hv
            cases hv
            exact Nat.le_refl t
          · rw [if_neg hk] at hv
            exact inv.hist_le k v hv
        · intro p hp
          rcases List.mem_append.mp hp with hp | hp
          · exact isSome_alookup_ainsert nh t (inv.waiting_rec p hp)
          · rcases List.mem_singleton.mp hp with rfl
            simp [alookup_ainsert_self]
        · intro p hp
          rcases List.mem_append.mp hp with hp | hp
          · exact inv.marker_ok p hp
          · rcases List.mem_singleton.mp hp with rfl
            exact noMac_marker_ok ip s dg nh t
        · intro hq
          rw [hipq] at hq
          exact inv.rec_none hq
        · intro v hv
          rw [hipq] at hv
          exact inv.rec_last v hv
  | some last =>
      by_cases hyoung : wsub t last < MAX_WAITING_TIME
      · have hst := send_datagram_young t s dg nh last htab hh hyoung
        have hev : stepEvents ip (t, s) (.send dg nh) = [] := by
          simp only [stepEvents, stepOp, hst]
          simp [List.drop_length]
        rw [hev, List.append_nil, hst]
        refine ⟨inv.hist_le, ?_, ?_, inv.table_nil, inv.chain, inv.rec_none,
          inv.rec_last⟩
        · intro p hp
          rcases List.mem_append.mp hp with hp | hp
          · exact inv.waiting_rec p hp
          · rcases List.mem_cons.mp hp with rfl | hp
            · simp [hh]
            · rcases List.mem_singleton.mp hp with rfl
              simp [hh]
        · intro p hp
          rcases List.mem_append.mp hp with hp | hp
          · exact inv.marker_ok p hp
          · rcases List.mem_cons.mp hp with rfl | hp
            · exact request_marker_ok ip s nh SIZE_MAX64
            · rcases List.mem_singleton.mp hp with rfl
              exact noMac_marker_ok ip s dg nh t
      · have hstale : MAX_WAITING_TIME ≤ wsub t last := by omega
        have hst := send_datagram_stale t s dg nh last htab hh hstale
        have hcommon1 : ∀ k v, alookup k (ainsert nh t s.request_history) = some v →
            v ≤ t := by
          intro k v hv
          rw [alookup_ainsert] at hv
          by_cases hk : k = nh
          · rw [if_pos hk] at hv
            cases hv
            exact Nat.le_refl t
          · rw [if_neg hk] at hv
            exact inv.hist_le k v hv
        have hcommon2 : ∀ p ∈ s.waiting_q ++ [(⟨nh, noMacFrame s dg, t⟩ : Waiting_Packet)],
            (alookup p.dst_ip (ainsert nh t s.request_history)).isSome = true := by
          intro p hp
          rcases List.mem_append.mp hp with hp | hp
          · exact isSome_alookup_ainsert nh t (inv.waiting_rec p hp)
          · rcases List.mem_singleton.mp hp with rfl
            simp [alookup_ainsert_self]
        have hcommon3 : ∀ p ∈ s.waiting_q ++ [(⟨nh, noMacFrame s dg, t⟩ : Waiting_Packet)],
            MarkerOk ip p := by
          intro p hp
          rcases List.mem_append.mp hp with hp | hp
          · exact inv.marker_ok p hp
          · rcases List.mem_singleton.mp hp with rfl
            exact noMac_marker_ok ip s dg nh t
        by_cases hnh : nh = ip
        · subst hnh
          have hev : stepEvents nh (t, s) (.send dg nh) = [t] := by
            simp only [stepEvents, stepOp, hst, List.drop_left]
            simp [List.filter_cons, isArpRequestFor_request]
          rw [hev, hst]
          have hlast := inv.rec_last last hh
          have hle : last ≤ t := inv.hist_le nh last hh
          have hgap : last + MAX_WAITING_TIME ≤ t := by
            rw [wsub_eq_sub hle ht] at hstale
            omega
          refine ⟨hcommon1, hcommon2, hcommon3, inv.table_nil, ?_, ?_, ?_⟩
          · rw [List.chain'_append]
            refine ⟨inv.chain, List.chain'_singleton t, ?_⟩
            intro x hx y hy
            rw [hlast] at hx
            cases hx
            cases hy
            exact hgap
          · intro hq
            rw [alookup_ainsert_self] at hq
            cases hq
          · intro v hv
            rw [alookup_ainsert_self] at hv
            cases hv
            exact List.getLast?_concat evs
        · have hev : stepEvents ip (t, s) (.send dg nh) = [] := by
            simp only [stepEvents, stepOp, hst, List.drop_left]
            simp [List.filter_cons, isArpRequestFor_request, hnh]
          rw [hev, List.append_nil, hst]
          have hipq : alookup ip (ainsert nh t s.request_history) =
              alookup ip s.request_history :=
            alookup_ainsert_ne t s.request_history (fun he => hnh he.symm)
          refine ⟨hcommon1, hcommon2, hcommon3, inv.table_nil, inv.chain, ?_, ?_⟩
          · intro hq
            rw [hipq] at hq
            exact inv.rec_none hq
          · intro v hv
            rw [hipq] at hv
            exact inv.rec_last v hv

lemma tick_step_inv (ip t : Nat) (s : NetworkInterface) (evs : List Nat)
    (inv : TraceInv ip t s evs) (ms : Nat) (hlt : t + ms < WSIZE) :
    TraceInv ip (tick t s ms).1 (tick t s ms).2
      (evs ++ stepEvents ip (t, s) (.tick ms)) := by
  have hmod : (t + ms) % WSIZE = t + ms := Nat.mod_eq_of_lt hlt
  obtain ⟨newp, hpush, hmono, hvals, hmem, hnone, hsome⟩ :=
    tick_fold_spec ip ((t + ms) % WSIZE) s.waiting_q ([], s.request_history, [])
      inv.waiting_rec inv.marker_ok
  have hready : (tick t s ms).2.ready2_sent_q = s.ready2_sent_q ++ newp := by
    rw [tick_def]
    simp only []
    rw [hpush]
    rfl
  have hev : stepEvents ip (t, s) (.tick ms) =
      (newp.filter (isArpRequestFor ip)).map (fun _ => (t + ms) % WSIZE) := by
    simp only [stepEvents, stepOp]
    rw [hready, List.drop_left]
    rfl
  have hhist : (tick t s ms).2.request_history =
      (s.waiting_q.foldl (tick_item ((t + ms) % WSIZE))
        ([], s.request_history, [])).2.1 := by
    rw [tick_def]
  have hwait : (tick t s ms).2.waiting_q =
      (s.waiting_q.foldl (tick_item ((t + ms) % WSIZE))
        ([], s.request_history, [])).1 := by
    rw [tick_def]
  have hclock : (tick t s ms).1 = t + ms := by
    rw [tick_def, hmod]
  refine ⟨?_, ?_, ?_, ?_, ?_, ?_, ?_⟩
  · intro k v hv
    rw [hhist] at hv
    rw [hclock]
    rcases hvals k v hv with h | h
    · have := inv.hist_le k v h
      omega
    · omega
  · intro p hp
    rw [hwait] at hp
    rw [hhist]
    rcases hmem p hp with h | h
    · cases h
    · exact hmono p.dst_ip (inv.waiting_rec p h)
  · intro p hp
    rw [hwait] at hp
    rcases hmem p hp with h | h
    · cases h
    · exact inv.marker_ok p h
  · rw [tick_def]
    simp only []
    rw [inv.table_nil]
    rfl
  · rw [hev]
    cases hq : alookup ip s.request_history with
    | none =>
        obtain ⟨-, hfil⟩ := hnone hq
        rw [hfil]
        simp [inv.chain]
    | some rv =>
        rcases hsome rv hq with ⟨hfil, -⟩ | ⟨hlen, hcond, -⟩
        · rw [hfil]
          simp [inv.chain]
        · obtain ⟨f, hf⟩ := List.length_eq_one.mp hlen
          rw [hf]
          simp only [List.map_cons, List.map_nil]
          rw [List.chain'_append]
          refine ⟨inv.chain, List.chain'_singleton _, ?_⟩
          intro x hx y hy
          rw [inv.rec_last rv hq] at hx
          cases hx
          cases hy
          have hle : rv ≤ t := inv.hist_le ip rv hq
          rw [hmod] at hcond ⊢
          rw [wsub_eq_sub (by omega) hlt] at hcond
          omega
  · intro hq
    rw [hhist] at hq
    rw [hev]
    cases hq0 : alookup ip s.request_history with
    | none =>
        obtain ⟨-, hfil⟩ := hnone hq0
        rw [hfil, inv.rec_none hq0]
        rfl
    | some rv =>
        rcases hsome rv hq0 with ⟨-, hres⟩ | ⟨-, -, hres⟩
        · rw [hq] at hres
          cases hres
        · rw [hq] at hres
          cases hres
  · intro v hv
    rw [hhist] at hv
    rw [hev]
    cases hq0 : alookup ip s.request_history with
    | none =>
        obtain ⟨hres, -⟩ := hnone hq0
        rw [hres] at hv
        cases hv
    | some rv =>
        rcases hsome rv hq0 with ⟨hfil, hres⟩ | ⟨hlen, -, hres⟩
        · rw [hres] at hv
          cases hv
          rw [hfil]
          simp only [List.map_nil, List.append_nil]
          exact inv.rec_last v hq0
        · rw [hres] at hv
          cases hv
          obtain ⟨f, hf⟩ := List.length_eq_one.mp hlen
          rw [hf]
          simp only [List.map_cons, List.map_nil]
          exact List.getLast?_concat evs

lemma traceInv_init (ip eth ipa : Nat) : TraceInv ip 0 (initInterface eth ipa) [] := by
  refine ⟨?_, ?_, ?_, rfl, List.chain'_nil, fun _ => rfl, ?_⟩
  · intro k v hv
    simp [initInterface, alookup] at hv
  · intro p hp
    simp [initInterface] at hp
  · intro p hp
    simp [initInterface] at hp
  · intro v hv
    simp [initInterface, alookup] at hv

lemma runFrom_inv (ip : Nat) :
    ∀ (ops : List IfOp) (t : Nat) (s : NetworkInterface) (evs : List Nat),
    TraceInv ip t s evs → t + tickSum ops < WSIZE →
    TraceInv ip (runFrom (t, s) ops).1 (runFrom (t, s) ops).2
      (evs ++ eventsAux ip (t, s) ops) := by
  intro ops
  induction ops with
  | nil =>
      intro t s evs inv _
      simpa [runFrom, eventsAux] using inv
  | cons op ops ih =>
      intro t s evs inv hbound
      have hrun : runFrom (t, s) (op :: ops) = runFrom (stepOp (t, s) op) ops := rfl
      have hevs : eventsAux ip (t, s) (op :: ops) =
          stepEvents ip (t, s) op ++ eventsAux ip (stepOp (t, s) op) ops := rfl
      rw [hrun, hevs, ← List.append_assoc]
      cases op with
      | send dg nh =>
          have hts : tickSum (IfOp.send dg nh :: ops) = tickSum ops := rfl
          rw [hts] at hbound
          have ht : t < WSIZE := by omega
          have inv' := send_step_inv ip t s evs inv ht dg nh
          exact ih t (send_datagram t s dg nh) _ inv' hbound
      | tick ms =>
          have hts : tickSum (IfOp.tick ms :: ops) = ms + tickSum ops := rfl
          rw [hts] at hbound
          have hlt : t + ms < WSIZE := by omega
          have inv' := tick_step_inv ip t s evs inv ms hlt
          have hclock : (tick t s ms).1 = t + ms := by
            rw [tick_def]
            exact Nat.mod_eq_of_lt hlt
          have hbound' : (tick t s ms).1 + tickSum ops < WSIZE := by
            rw [hclock]
            omega
          exact ih (tick t s ms).1 (tick t s ms).2 _ inv' hbound'

/-- C3: along every trace of `send_datagram` and `tick` operations on one
freshly constructed interface, the clock times at which broadcast ARP
request frames for a given unresolved IP are appended to the outbound-ready
queue are pairwise at least 5000 ms apart (at most one request per 5000 ms
window); moreover a send while the IP's request record is younger than
5000 ms appends nothing to the outbound-ready queue, and a send when the
record is 5000 ms old or older appends exactly one fresh broadcast ARP
request and refreshes the record to the current clock. -/
theorem c3_retry_throttling :
    (∀ (eth ipa ip : Nat) (ops : List IfOp), tickSum ops < WSIZE →
        (arpReqEvents eth ipa ip ops).Pairwise
          (fun a b => a + MAX_WAITING_TIME ≤ b))
    ∧ (∀ (t : Nat) (s : NetworkInterface) (dg : InternetDatagram) (ip last : Nat),
        alookup ip s.ARP_table = none → alookup ip s.request_history = some last →
        wsub t last < MAX_WAITING_TIME →
        (send_datagram t s dg ip).ready2_sent_q = s.ready2_sent_q)
    ∧ (∀ (t : Nat) (s : NetworkInterface) (dg : InternetDatagram) (ip last : Nat),
        alookup ip s.ARP_table = none → alookup ip s.request_history = some last →
        MAX_WAITING_TIME ≤ wsub t last →
        (send_datagram t s dg ip).ready2_sent_q =
          s.ready2_sent_q ++ [arpRequestFrame s ip]
        ∧ alookup ip (send_datagram t s dg ip).request_history = some t) := by
  refine ⟨?_, ?_, ?_⟩
  · intro eth ipa ip ops hops
    have h := runFrom_inv ip ops 0 (initInterface eth ipa) []
      (traceInv_init ip eth ipa) (by omega)
    have hch := h.chain
    haveI : IsTrans Nat (fun a b => a + MAX_WAITING_TIME ≤ b) :=
      ⟨fun a b c h1 h2 => by omega⟩
    exact List.chain'_iff_pairwise.mp (by simpa [arpReqEvents] using hch)
  · intro t s dg ip last h1 h2 h3
    rw [send_datagram_young t s dg ip last h1 h2 h3]
  · intro t s dg ip last h1 h2 h3
    rw [send_datagram_stale t s dg ip last h1 h2 h3]
    exact ⟨rfl, alookup_ainsert_self ip t s.request_history⟩

def c3ops : List IfOp :=
  [.send ⟨⟨64, 99⟩⟩ 10, .tick 6000, .send ⟨⟨64, 99⟩⟩ 10,
   .send ⟨⟨64, 99⟩⟩ 10, .tick 5000]

def c3s : NetworkInterface := send_datagram 0 (initInterface 1 2) ⟨⟨64, 99⟩⟩ 10

/-- Witness for C3: a concrete five-operation trace and concrete young- and
stale-record sends. -/
theorem c3_retry_throttling_witness :
    (arpReqEvents 1 2 10 c3ops).Pairwise (fun a b => a + MAX_WAITING_TIME ≤ b)
    ∧ (send_datagram 0 c3s ⟨⟨64, 99⟩⟩ 10).ready2_sent_q = c3s.ready2_sent_q
    ∧ ((send_datagram 6000 c3s ⟨⟨64, 99⟩⟩ 10).ready2_sent_q =
        c3s.ready2_sent_q ++ [arpRequestFrame c3s 10]
      ∧ alookup 10 (send_datagram 6000 c3s ⟨⟨64, 99⟩⟩ 10).request_history =
          some 6000) :=
  ⟨c3_retry_throttling.1 1 2 10 c3ops (by decide),
   c3_retry_throttling.2.1 0 c3s ⟨⟨64, 99⟩⟩ 10 0 rfl rfl (by decide),
   c3_retry_throttling.2.2 6000 c3s ⟨⟨64, 99⟩⟩ 10 0 rfl rfl (by decide)⟩

end SimplifiedRouter
